import Mathlib

/-!
# mcp-analytics: query translation, facet decoding and event synchronisation

A shallow embedding of `internal/search/service.go` and `internal/api/events.go`
together with theorems about the embedded functions.

Conventions of the embedding.

* A Go value of type `interface{}` that is built for, or decoded from, JSON is a
  `JVal`.  A Go `map[string]interface{}` is the list of its entries; a map
  literal lists its entries in the order of the source text.
* `range` over a Go map visits the entries in an unspecified order.  The field
  `SearchQuery.Filters` therefore holds the entries of the map in the order in
  which the loop of `buildESQuery` visits them.
* A failed type assertion (a run-time panic) is the result `none`.
-/

namespace McpAnalytics

/-! ## Go values of type `interface{}` -/

/-- The dynamic values that occur behind `interface{}` in this program:
`nil`, `bool`, `float64` (the only number type `encoding/json` decodes into an
`interface{}`; its finite values are rationals), `int` (integer constants placed
in a map literal), `string`, `[]interface{}` (also used for `[]string`) and
`map[string]interface{}`. -/
inductive JVal where
  | null : JVal
  | bool (b : Bool) : JVal
  | num (f : ℚ) : JVal
  | int (n : Int) : JVal
  | str (s : String) : JVal
  | arr (xs : List JVal) : JVal
  | obj (kvs : List (String × JVal)) : JVal

/-- A Go `map[string]interface{}`; the empty list also stands for the nil map. -/
abbrev JMap := List (String × JVal)

/-- The index expression `m[k]` of a Go map, `none` standing for the nil interface value
that a missing key yields. -/
def JMap.get (m : JMap) (k : String) : Option JVal :=
  match m with
  | [] => none
  | (k', v) :: rest => if k' = k then some v else JMap.get rest k

/-- The assignment `m[k] = v` of a Go map: an existing entry is replaced in place,
a new one is added. -/
def JMap.set (m : JMap) (k : String) (v : JVal) : JMap :=
  match m with
  | [] => [(k, v)]
  | (k', v') :: rest => if k' = k then (k, v) :: rest else (k', v') :: JMap.set rest k v

/-- Member `k` of a value, when the value is an object that has it. -/
def JVal.field (v : JVal) (k : String) : Option JVal :=
  match v with
  | .obj kvs => JMap.get kvs k
  | _ => none

/-! ## `internal/search/service.go`: the query types -/

/-- The struct `SearchQuery`.  `Filters` lists the entries of the Go map in the order in
which `range` visits them; `SortKey` is the field `Sort` (a reserved word here). -/
structure SearchQuery where
  Query : String
  Filters : List (String × JVal)
  SortKey : String
  Offset : Int
  Limit : Int

/-- The struct `FacetValue`. -/
structure FacetValue where
  Value : String
  Count : Int
  deriving DecidableEq, Repr

/-- The struct `Facet`. -/
structure Facet where
  Field : String
  Values : List FacetValue
  deriving DecidableEq, Repr

/-! ## `buildESQuery` -/

/-- The body of the `switch field` statement inside the filter loop of `buildESQuery`:
the clause appended to `boolQuery["filter"]` for one map entry. -/
def filterStep (filter : List JVal) (field : String) (value : JVal) : List JVal :=
  if field = "package_type" then
    filter ++ [JVal.obj [("nested", JVal.obj [
      ("path", JVal.str "packages"),
      ("query", JVal.obj [("term", JVal.obj [("packages.type", value)])])])]]
  else if field = "transport" then
    filter ++ [JVal.obj [("nested", JVal.obj [
      ("path", JVal.str "remotes"),
      ("query", JVal.obj [("term", JVal.obj [("remotes.transport", value)])])])]]
  else
    filter ++ [JVal.obj [("term", JVal.obj [(field, value)])]]

/-- The loop `for field, value := range query.Filters` of `buildESQuery`, started with the
current contents of `boolQuery["filter"]`. -/
def filterLoop (filter : List JVal) : List (String × JVal) → List JVal
  | [] => filter
  | (field, value) :: rest => filterLoop (filterStep filter field value) rest

/-- The `switch query.Sort` statement of `buildESQuery`: the new value of `esQuery`. -/
def applySort (esQuery : JMap) (sort : String) : JMap :=
  if sort = "popularity" then
    esQuery.set "sort" (JVal.arr [JVal.obj [("popularity_score", JVal.obj [("order", JVal.str "desc")])]])
  else if sort = "trending" then
    esQuery.set "sort" (JVal.arr [JVal.obj [("trending_score", JVal.obj [("order", JVal.str "desc")])]])
  else if sort = "rating" then
    esQuery.set "sort" (JVal.arr [JVal.obj [("rating_average", JVal.obj [("order", JVal.str "desc")])]])
  else if sort = "recent" then
    esQuery.set "sort" (JVal.arr [JVal.obj [("last_updated", JVal.obj [("order", JVal.str "desc")])]])
  else
    esQuery

/-- The method `buildESQuery`. -/
def buildESQuery (query : SearchQuery) : JMap :=
  -- Base query structure
  let esQuery : JMap := [
    ("query", JVal.obj []),
    ("aggs", JVal.obj []),
    ("sort", JVal.arr [])]
  -- Build bool query
  let must : List JVal := []
  let filter : List JVal := []
  -- Add text search
  let must :=
    if query.Query ≠ "" then
      must ++ [JVal.obj [("multi_match", JVal.obj [
        ("query", JVal.str query.Query),
        ("fields", JVal.arr [JVal.str "name^3", JVal.str "description^2",
          JVal.str "author", JVal.str "categories"]),
        ("type", JVal.str "best_fields")])]]
    else must
  -- Add filters
  let filter := filterLoop filter query.Filters
  let boolQuery : JMap := [("must", JVal.arr must), ("filter", JVal.arr filter)]
  -- Set query
  let esQuery :=
    if must.length > 0 ∨ filter.length > 0 then
      esQuery.set "query" (JVal.obj [("bool", JVal.obj boolQuery)])
    else
      esQuery.set "query" (JVal.obj [("match_all", JVal.obj [])])
  -- Add sorting
  let esQuery := applySort esQuery query.SortKey
  -- Add aggregations for facets
  esQuery.set "aggs" (JVal.obj [
    ("categories", JVal.obj [
      ("terms", JVal.obj [("field", JVal.str "categories"), ("size", JVal.int 20)])]),
    ("package_types", JVal.obj [
      ("nested", JVal.obj [("path", JVal.str "packages")]),
      ("aggs", JVal.obj [
        ("types", JVal.obj [
          ("terms", JVal.obj [("field", JVal.str "packages.type"), ("size", JVal.int 10)])])])]),
    ("transports", JVal.obj [
      ("nested", JVal.obj [("path", JVal.str "remotes")]),
      ("aggs", JVal.obj [
        ("types", JVal.obj [
          ("terms", JVal.obj [("field", JVal.str "remotes.transport"), ("size", JVal.int 10)])])])])])

/-! ## `parseFacets` -/

/-- Least value of the Go type `int` (64 bits on the platforms the service is built for). -/
def minInt : Int := -9223372036854775808

/-- Greatest value of the Go type `int`. -/
def maxInt : Int := 9223372036854775807

/-- The conversion `int(f)` of a `float64`: the fraction is discarded (truncation towards
zero).  When the truncated value is not a value of `int` the Go specification leaves the
result to the implementation; the value taken here is the one of amd64, the least `int`. -/
def floatToInt (f : ℚ) : Int :=
  let t := Int.tdiv f.num (f.den : Int)
  if minInt ≤ t ∧ t ≤ maxInt then t else minInt

/-- The loop `for _, bucket := range buckets` of `parseFacets`, started with the current
contents of the facet's `Values`.  An entry that is not an object is skipped; in an object
the assertions `b["key"].(string)` and `b["doc_count"].(float64)` are made in this
order, and a failed one ends the run (`none`). -/
def bucketLoop (values : List FacetValue) : List JVal → Option (List FacetValue)
  | [] => some values
  | bucket :: rest =>
    match bucket with
    | JVal.obj b =>
      match JMap.get b "key" with
      | some (JVal.str key) =>
        match JMap.get b "doc_count" with
        | some (JVal.num count) => bucketLoop (values ++ [⟨key, floatToInt count⟩]) rest
        | _ => none
      | _ => none
    | _ => bucketLoop values rest

/-- The block that `parseFacets` runs once a bucket list has been found: a facet named
`field` is filled from the buckets and appended to `facets` when it has a value. -/
def addFacet (facets : List Facet) (field : String) (buckets : List JVal) :
    Option (List Facet) :=
  match bucketLoop [] buckets with
  | none => none
  | some values =>
    if values.length > 0 then some (facets ++ [⟨field, values⟩]) else some facets

/-- The block `// Parse categories` of `parseFacets`, run on the facets found so far. -/
def parseCategories (aggs : JMap) (facets : List Facet) : Option (List Facet) :=
  match JMap.get aggs "categories" with
  | some (JVal.obj catAgg) =>
    match JMap.get catAgg "buckets" with
    | some (JVal.arr buckets) => addFacet facets "categories" buckets
    | _ => some facets
  | _ => some facets

/-- The block `// Parse package types` of `parseFacets`, run on the facets found so far. -/
def parsePackageTypes (aggs : JMap) (facets : List Facet) : Option (List Facet) :=
  match JMap.get aggs "package_types" with
  | some (JVal.obj pkgAgg) =>
    match JMap.get pkgAgg "types" with
    | some (JVal.obj typesAgg) =>
      match JMap.get typesAgg "buckets" with
      | some (JVal.arr buckets) => addFacet facets "package_type" buckets
      | _ => some facets
    | _ => some facets
  | _ => some facets

/-- The block `// Parse transports` of `parseFacets`, run on the facets found so far. -/
def parseTransports (aggs : JMap) (facets : List Facet) : Option (List Facet) :=
  match JMap.get aggs "transports" with
  | some (JVal.obj transAgg) =>
    match JMap.get transAgg "types" with
    | some (JVal.obj typesAgg) =>
      match JMap.get typesAgg "buckets" with
      | some (JVal.arr buckets) => addFacet facets "transport" buckets
      | _ => some facets
    | _ => some facets
  | _ => some facets

/-- The method `parseFacets`: the three blocks in sequence, starting from the empty list
`facets := []Facet{}`; a panic in one block ends the run. -/
def parseFacets (aggs : JMap) : Option (List Facet) :=
  (parseCategories aggs []).bind fun facets =>
    (parsePackageTypes aggs facets).bind fun facets =>
      parseTransports aggs facets

/-! ### Vocabulary for the statements about `parseFacets` -/

/-- The value reached from a map by a path of keys through nested objects. -/
def JMap.path (m : JMap) : List String → Option JVal
  | [] => some (JVal.obj m)
  | k :: ks =>
    match ks with
    | [] => m.get k
    | _ :: _ =>
      match m.get k with
      | some (JVal.obj inner) => JMap.path inner ks
      | _ => none

/-- The bucket list found in an aggregation map at a path of keys, when there is one. -/
def bucketsAt (aggs : JMap) (path : List String) : Option (List JVal) :=
  match JMap.path aggs path with
  | some (JVal.arr buckets) => some buckets
  | _ => none

/-- Where the bucket list of each facet kind lives in the aggregation map. -/
def bucketPath (field : String) : List String :=
  if field = "categories" then ["categories", "buckets"]
  else if field = "package_type" then ["package_types", "types", "buckets"]
  else if field = "transport" then ["transports", "types", "buckets"]
  else []

/-- An entry of a bucket list that is an object. -/
def isObject : JVal → Bool
  | JVal.obj _ => true
  | _ => false

/-- A bucket-list entry that is either no object or an object with a string "key" and a
numeric (`float64`) "doc_count". -/
def bucketOk : JVal → Bool
  | JVal.obj b =>
    match JMap.get b "key", JMap.get b "doc_count" with
    | some (JVal.str _), some (JVal.num _) => true
    | _, _ => false
  | _ => true

/-- As `bucketOk`, the "doc_count" being moreover a whole number. -/
def bucketWhole : JVal → Bool
  | JVal.obj b =>
    match JMap.get b "key", JMap.get b "doc_count" with
    | some (JVal.str _), some (JVal.num c) => c.den = 1
    | _, _ => false
  | _ => true

/-- As `bucketWhole`, the whole number being moreover a value of the type `int`. -/
def bucketInt : JVal → Bool
  | JVal.obj b =>
    match JMap.get b "key", JMap.get b "doc_count" with
    | some (JVal.str _), some (JVal.num c) => c.den = 1 ∧ minInt ≤ c.num ∧ c.num ≤ maxInt
    | _, _ => false
  | _ => true

/-- Every entry of every bucket list that `parseFacets` reads satisfies `ok`. -/
def bucketsAll (ok : JVal → Bool) (aggs : JMap) : Bool :=
  ["categories", "package_type", "transport"].all fun field =>
    match bucketsAt aggs (bucketPath field) with
    | some buckets => buckets.all ok
    | none => true

/-- The (key, doc_count) pairs of the object entries of a bucket list, in the order of
the list; the count is the numerator of the `float64`, its value when it is whole. -/
def bucketPairs : List JVal → List FacetValue
  | [] => []
  | JVal.obj b :: rest =>
    match JMap.get b "key", JMap.get b "doc_count" with
    | some (JVal.str key), some (JVal.num c) => ⟨key, c.num⟩ :: bucketPairs rest
    | _, _ => bucketPairs rest
  | _ :: rest => bucketPairs rest

/-- The values that the bucket loop decodes from the well-formed object entries of a
bucket list. -/
def decodedValues : List JVal → List FacetValue
  | [] => []
  | JVal.obj b :: rest =>
    match JMap.get b "key", JMap.get b "doc_count" with
    | some (JVal.str key), some (JVal.num c) => ⟨key, floatToInt c⟩ :: decodedValues rest
    | _, _ => decodedValues rest
  | _ :: rest => decodedValues rest

/-- The facet, if any, that one kind contributes to the result. -/
def facetOf (aggs : JMap) (field : String) : List Facet :=
  match bucketsAt aggs (bucketPath field) with
  | some buckets =>
    if (decodedValues buckets).length > 0 then [⟨field, decodedValues buckets⟩] else []
  | none => []

/-- An aggregation section as the store returns it: two category buckets, no package-type
bucket and one transport bucket. -/
def sampleAggs : JMap := [
  ("categories", JVal.obj [
    ("doc_count_error_upper_bound", JVal.num 0),
    ("buckets", JVal.arr [
      JVal.obj [("key", JVal.str "search"), ("doc_count", JVal.num 7)],
      JVal.obj [("key", JVal.str "weather"), ("doc_count", JVal.num 2)]])]),
  ("package_types", JVal.obj [
    ("doc_count", JVal.num 0),
    ("types", JVal.obj [("buckets", JVal.arr [])])]),
  ("transports", JVal.obj [
    ("doc_count", JVal.num 3),
    ("types", JVal.obj [("buckets", JVal.arr [
      JVal.obj [("key", JVal.str "stdio"), ("doc_count", JVal.num 3)]])])])]

/-! ## `internal/model/server.go` -/

/-- A value of `time.Time`, as an instant counted in nanoseconds; 0 is the zero time. -/
abbrev Time := Int

/-- The struct `Package`; `Typ` is the field `Type` (a reserved word here). -/
structure Package where
  Typ : String := ""
  Name : String := ""
  Version : String := ""
  deriving DecidableEq, Repr

/-- The struct `VersionDetail`. -/
structure VersionDetail where
  Version : String := ""
  SDKVersion : String := ""
  ProtocolVersion : String := ""
  deriving DecidableEq, Repr

/-- The struct `Remote`; `Typ` is the field `Type`, `Headers` the entries of the map. -/
structure Remote where
  Typ : String := ""
  Transport : String := ""
  Command : String := ""
  Args : List String := []
  URL : String := ""
  Headers : List (String × String) := []
  deriving DecidableEq, Repr

/-- The struct `Capability`. -/
structure Capability where
  Name : String := ""
  Description : String := ""
  deriving DecidableEq, Repr

/-- The struct `ServerDetail`; every field defaults to its zero value.  `int64` fields are
integers, `float64` fields rationals. -/
structure ServerDetail where
  ID : String := ""
  Name : String := ""
  Description : String := ""
  Author : String := ""
  Homepage : String := ""
  Source : String := ""
  Repository : String := ""
  License : String := ""
  Categories : List String := []
  Packages : List Package := []
  VersionDetail : VersionDetail := {}
  Remotes : List Remote := []
  Tools : List Capability := []
  Prompts : List Capability := []
  Templates : List Capability := []
  IndexedAt : Time := 0
  LastUpdated : Time := 0
  InstallCount : Int := 0
  RatingAverage : ℚ := 0
  RatingCount : Int := 0
  PopularityScore : ℚ := 0
  TrendingScore : ℚ := 0
  QualityScore : ℚ := 0
  Score : ℚ := 0
  deriving DecidableEq

/-! ## The document store behind `search.Service`

The index `mcp_servers` of the external engine is a finite map from document ids to
documents.  The embedding keeps the document that `IndexServer` marshals as the
`ServerDetail` itself, and `GetServer` gives back the value that was stored.  What the
engine and the network do is not in the source; the embedding takes it from an
environment `Env`, one for the processing of each event: whether each request fails, and
the id that the engine gives to a document indexed without one.  A request that fails is
taken to leave the index as it was. -/

/-- The index `mcp_servers`: the document stored under each id, if any. -/
abbrev Store := String → Option ServerDetail

/-- The index after a document has been written under `id`. -/
def Store.put (store : Store) (id : String) (doc : ServerDetail) : Store :=
  fun k => if k = id then some doc else store k

/-- The index after the document under `id` has been removed. -/
def Store.delete (store : Store) (id : String) : Store :=
  fun k => if k = id then none else store k

/-- What the surroundings decide while one event is processed. -/
structure Env where
  /-- Result of the first call of `time.Now()`. -/
  now1 : Time
  /-- Result of the second call of `time.Now()`. -/
  now2 : Time
  /-- Result of the third call of `time.Now()`. -/
  now3 : Time
  /-- The get request fails (transport error, a status other than 404, or a body that
  does not decode). -/
  getFails : Bool
  /-- The index request fails (transport error or an error status). -/
  indexFails : Bool
  /-- The delete request fails (transport error or an error status other than 404). -/
  deleteFails : Bool
  /-- The id that the engine assigns to a document indexed with an empty `DocumentID`. -/
  autoID : String

/-- The method `IndexServer`: the new index and whether the returned error is nil.  The
request carries `DocumentID: server.ID`; with an empty id the engine chooses one. -/
def IndexServer (env : Env) (store : Store) (server : ServerDetail) : Store × Bool :=
  if env.indexFails then (store, false)
  else (store.put (if server.ID ≠ "" then server.ID else env.autoID) server, true)

/-- The method `GetServer`: the document, or the error message. -/
def GetServer (env : Env) (store : Store) (id : String) : Except String ServerDetail :=
  if env.getFails then Except.error "failed to get document"
  else
    match store id with
    | none => Except.error ("server not found: " ++ id)
    | some source => Except.ok source

/-- The method `DeleteServer`: the new index and whether the returned error is nil.  The
engine answers 404 when there is no document under the id, which is no error. -/
def DeleteServer (env : Env) (store : Store) (id : String) : Store × Bool :=
  if env.deleteFails then (store, false)
  else
    match store id with
    | none => (store, true)
    | some _ => (store.delete id, true)

/-! ## `internal/api/events.go` -/

/-- The constant `EventServerAdded`. -/
def EventServerAdded : String := "server_added"

/-- The constant `EventServerUpdated`. -/
def EventServerUpdated : String := "server_updated"

/-- The constant `EventServerDeleted`. -/
def EventServerDeleted : String := "server_deleted"

/-- The struct `Event`; `Typ` is the field `Type` (a reserved word here). -/
structure Event where
  Typ : String
  ServerID : String
  Timestamp : Time
  Data : JMap

/-- The buffered channel `eventQueue`: the events waiting in it, oldest first, and its
capacity. -/
structure Chan where
  buf : List Event
  cap : Nat

/-- The struct `EventHandler`, with the index that its `searchService` talks to. -/
structure EventHandler where
  searchService : Store
  eventQueue : Chan

/-- The function `NewEventHandler`: `make(chan Event, 1000)`. -/
def NewEventHandler (searchService : Store) : EventHandler :=
  { searchService := searchService, eventQueue := { buf := [], cap := 1000 } }

/-- The answer of an HTTP handler: the status and the JSON object of the body. -/
structure Response where
  status : Nat
  body : List (String × String)
  deriving DecidableEq, Repr

/-- The method `HandleEvent`, given the result of `c.BodyParser(&event)` (`none` when the
body does not parse): the answer and the handler afterwards.  The `select` with a
`default` case sends when the buffer has room and takes the default case otherwise. -/
def HandleEvent (h : EventHandler) (parsed : Option Event) : Response × EventHandler :=
  match parsed with
  | none => ({ status := 400, body := [("error", "Invalid event format")] }, h)
  | some event =>
    -- Validate event
    if event.Typ = "" ∨ event.ServerID = "" then
      ({ status := 400, body := [("error", "Missing required fields")] }, h)
    -- Queue event for processing
    else if h.eventQueue.buf.length < h.eventQueue.cap then
      ({ status := 200, body := [("status", "accepted")] },
        { h with eventQueue := { h.eventQueue with buf := h.eventQueue.buf ++ [event] } })
    else
      ({ status := 503, body := [("error", "Event queue full")] }, h)

/-- How the processing of one event ends: the handler logged its success, the handler
logged a failure and returned, or no handler was called (`Unknown event type`). -/
inductive Outcome where
  | succeeded
  | failed
  | unknownType
  deriving DecidableEq, Repr

/-- The method `eventDataToServerDetail`.  `unmarshal` stands for `json.Marshal` of the
data followed by `json.Unmarshal` into a `ServerDetail` (`none` when either fails); the
two time stamps are then set from the clock. -/
def eventDataToServerDetail (unmarshal : JMap → Option ServerDetail) (env : Env)
    (data : JMap) : Option ServerDetail :=
  match unmarshal data with
  | none => none
  | some server => some { server with IndexedAt := env.now1, LastUpdated := env.now2 }

/-- The method `applyUpdates`: the new value of `*server`, `none` for an error. -/
def applyUpdates (unmarshal : JMap → Option ServerDetail) (env : Env)
    (server : ServerDetail) (updates : JMap) : Option ServerDetail :=
  match eventDataToServerDetail unmarshal env updates with
  | none => none
  | some updatedServer =>
    -- Preserve certain fields from the original
    some { updatedServer with
      ID := server.ID, IndexedAt := server.IndexedAt, LastUpdated := env.now3 }

/-- The method `handleServerAdded`. -/
def handleServerAdded (unmarshal : JMap → Option ServerDetail) (env : Env) (store : Store)
    (event : Event) : Store × Outcome :=
  match eventDataToServerDetail unmarshal env event.Data with
  | none => (store, Outcome.failed)
  | some serverDetail =>
    match IndexServer env store serverDetail with
    | (store, false) => (store, Outcome.failed)
    | (store, true) => (store, Outcome.succeeded)

/-- The method `handleServerUpdated`. -/
def handleServerUpdated (unmarshal : JMap → Option ServerDetail) (env : Env) (store : Store)
    (event : Event) : Store × Outcome :=
  match GetServer env store event.ServerID with
  | Except.error _ => (store, Outcome.failed)
  | Except.ok server =>
    match applyUpdates unmarshal env server event.Data with
    | none => (store, Outcome.failed)
    | some server =>
      match IndexServer env store server with
      | (store, false) => (store, Outcome.failed)
      | (store, true) => (store, Outcome.succeeded)

/-- The method `handleServerDeleted`. -/
def handleServerDeleted (env : Env) (store : Store) (event : Event) : Store × Outcome :=
  match DeleteServer env store event.ServerID with
  | (store, false) => (store, Outcome.failed)
  | (store, true) => (store, Outcome.succeeded)

/-- The body of the loop of `processEvents`: the `switch event.Type`. -/
def processEvent (unmarshal : JMap → Option ServerDetail) (env : Env) (store : Store)
    (event : Event) : Store × Outcome :=
  if event.Typ = EventServerAdded then handleServerAdded unmarshal env store event
  else if event.Typ = EventServerUpdated then handleServerUpdated unmarshal env store event
  else if event.Typ = EventServerDeleted then handleServerDeleted env store event
  else (store, Outcome.unknownType)

/-- The method `processEvents` on the events that the channel delivers, oldest first, each
with the environment of its processing: the index when the last one has been processed. -/
def processEvents (unmarshal : JMap → Option ServerDetail) (store : Store) :
    List (Env × Event) → Store
  | [] => store
  | (env, event) :: rest =>
    processEvents unmarshal (processEvent unmarshal env store event).1 rest

/-- The outcomes of the run of `processEvents`, one for each event, in order. -/
def outcomes (unmarshal : JMap → Option ServerDetail) (store : Store) :
    List (Env × Event) → List Outcome
  | [] => []
  | (env, event) :: rest =>
    (processEvent unmarshal env store event).2 ::
      outcomes unmarshal (processEvent unmarshal env store event).1 rest

/-! ## The method `Search` and the handler of `GET /v1/search` -/

/-- The query string of a request to `GET /v1/search`.  A text parameter is the string
that `c.Query` gives, empty when the parameter is absent.  For `offset` and `limit` the
field is the integer that the text of the parameter denotes, of any size, and `none`
when the parameter is absent or its text denotes no integer. -/
structure SearchParams where
  q : String
  sort : String
  offset : Option Int
  limit : Option Int
  package_type : String
  transport : String
  category : String
  source : String

/-- The method `c.QueryInt(key, defaultValue)` of the web framework: `strconv.Atoi` of the
text of the parameter, and the default when that returns an error, which it does when
the parameter is absent, when its text denotes no integer, and when the integer is no
value of the type `int` (less than `minInt` or greater than `maxInt`). -/
def QueryInt (param : Option Int) (defaultValue : Int) : Int :=
  match param with
  | none => defaultValue
  | some n => if minInt ≤ n ∧ n ≤ maxInt then n else defaultValue

/-- The handler of `GET /v1/search` in `main`, up to the call of `Search`: the query that
it hands to `Search`, for the configured `cfg.SearchMaxResults`.  The filters are listed
in the order in which they are added to the map. -/
def searchHandlerQuery (searchMaxResults : Int) (c : SearchParams) : SearchQuery :=
  let query : SearchQuery :=
    { Query := c.q,
      SortKey := if c.sort = "" then "relevance" else c.sort,
      Offset := QueryInt c.offset 0,
      Limit := QueryInt c.limit 20,
      Filters := [] }
  -- Add filters
  let filters := query.Filters
  let filters :=
    if c.package_type ≠ "" then JMap.set filters "package_type" (JVal.str c.package_type)
    else filters
  let filters :=
    if c.transport ≠ "" then JMap.set filters "transport" (JVal.str c.transport) else filters
  let filters :=
    if c.category ≠ "" then JMap.set filters "categories" (JVal.str c.category) else filters
  let filters :=
    if c.source ≠ "" then JMap.set filters "source" (JVal.str c.source) else filters
  let query := { query with Filters := filters }
  -- Validate limit
  if query.Limit > searchMaxResults then { query with Limit := searchMaxResults } else query

/-! ### Sample data for the statements about events -/

/-- A stand-in for the decoder: it reads the members "id" and "name" of the payload and
fails when one of them is missing or no string.  On a payload that has just these two
string members it gives the descriptor that decoding into `ServerDetail` gives. -/
def sampleUnmarshal (data : JMap) : Option ServerDetail :=
  match JMap.get data "id", JMap.get data "name" with
  | some (JVal.str id), some (JVal.str name) => some { ID := id, Name := name }
  | _, _ => none

/-- The index without any document. -/
def emptyStore : Store := fun _ => none

/-- An environment in which every request succeeds, with the three clock readings. -/
def calmEnv (t1 t2 t3 : Time) : Env :=
  { now1 := t1, now2 := t2, now3 := t3, getFails := false, indexFails := false,
    deleteFails := false, autoID := "generated" }

/-- An environment in which every request fails. -/
def stormEnv : Env :=
  { now1 := 30, now2 := 31, now3 := 32, getFails := true, indexFails := true,
    deleteFails := true, autoID := "generated" }

/-- An event of the given type for the server `srv-1` whose payload carries the given id
and name. -/
def sampleEvent (typ id name : String) : Event :=
  { Typ := typ, ServerID := "srv-1", Timestamp := 5,
    Data := [("id", JVal.str id), ("name", JVal.str name)] }

/-- Four events for `srv-1`: an added one, an updated one, a deleted one whose request
fails, and one of an unknown type. -/
def sampleRun : List (Env × Event) := [
  (calmEnv 10 11 12, sampleEvent "server_added" "srv-1" "alpha"),
  (calmEnv 20 21 22, sampleEvent "server_updated" "other" "beta"),
  (stormEnv, sampleEvent "server_deleted" "srv-1" ""),
  (calmEnv 40 41 42, sampleEvent "server_renamed" "srv-1" "gamma")]

/-- An index that holds under `srv-1` a descriptor with analytics values. -/
def ratedStore : Store :=
  emptyStore.put "srv-1"
    { ID := "srv-1", Name := "alpha", IndexedAt := 10, LastUpdated := 11,
      InstallCount := 5, RatingAverage := 4, RatingCount := 3,
      PopularityScore := 2, TrendingScore := 1, QualityScore := 1 }

/-- An aggregation section of unexpected shapes: `categories` is a string, the `types`
of `package_types` is a list, and the bucket list of `transports` has entries that are
not objects around one well-formed bucket. -/
def oddAggs : JMap := [
  ("categories", JVal.str "none"),
  ("package_types", JVal.obj [("types", JVal.arr [])]),
  ("transports", JVal.obj [("types", JVal.obj [("buckets", JVal.arr [
    JVal.num 1,
    JVal.obj [("key", JVal.str "sse"), ("doc_count", JVal.num 4)],
    JVal.null,
    JVal.str "http"])])])]

/-! ## Theorems: `buildESQuery` -/

/-- One run of the switch appends exactly one clause. -/
theorem filterStep_eq_append (filter : List JVal) (field : String) (value : JVal) :
    filterStep filter field value = filter ++ filterStep [] field value := by
  unfold filterStep
  split_ifs <;> simp

/-- The filter loop only appends to the clauses it starts with. -/
theorem filterLoop_eq_append (filter : List JVal) (fs : List (String × JVal)) :
    filterLoop filter fs = filter ++ filterLoop [] fs := by
  induction fs generalizing filter with
  | nil => simp [filterLoop]
  | cons e rest ih =>
    obtain ⟨field, value⟩ := e
    simp only [filterLoop]
    rw [ih (filterStep filter field value), ih (filterStep [] field value),
      filterStep_eq_append filter field value, List.append_assoc]

/-- The loop produces no clause exactly when the map has no entry. -/
theorem filterLoop_eq_nil_iff (fs : List (String × JVal)) :
    filterLoop [] fs = [] ↔ fs = [] := by
  cases fs with
  | nil => simp [filterLoop]
  | cons e rest =>
    obtain ⟨field, value⟩ := e
    simp only [filterLoop]
    rw [filterLoop_eq_append]
    unfold filterStep
    split_ifs <;> simp

/-- The loop produces a clause exactly when the map has an entry. -/
theorem filterLoop_length_pos_iff (fs : List (String × JVal)) :
    (filterLoop [] fs).length > 0 ↔ fs ≠ [] := by
  show 0 < (filterLoop [] fs).length ↔ fs ≠ []
  rw [List.length_pos, Ne, Ne, filterLoop_eq_nil_iff]

/-- The value stored under "query" when there is a text or a filter entry. -/
theorem buildESQuery_get_query_bool (q : SearchQuery) (h : q.Query ≠ "" ∨ q.Filters ≠ []) :
    (buildESQuery q).get "query" =
      some (JVal.obj [("bool", JVal.obj [
          ("must", JVal.arr (if q.Query ≠ "" then
            [JVal.obj [("multi_match", JVal.obj [
              ("query", JVal.str q.Query),
              ("fields", JVal.arr [JVal.str "name^3", JVal.str "description^2",
                JVal.str "author", JVal.str "categories"]),
              ("type", JVal.str "best_fields")])]] else [])),
          ("filter", JVal.arr (filterLoop [] q.Filters))])]) := by
  have hl := filterLoop_length_pos_iff q.Filters
  by_cases hq : q.Query = ""
  · have hf : q.Filters ≠ [] := by
      rcases h with h | h
      · exact absurd hq h
      · exact h
    simp only [buildESQuery, applySort, hl]
    split_ifs <;> simp_all [JMap.set, JMap.get]
  · simp only [buildESQuery, applySort, hl]
    split_ifs <;> simp_all [JMap.set, JMap.get]

/-- The value stored under "query" when there is neither a text nor a filter entry. -/
theorem buildESQuery_get_query_match_all (q : SearchQuery) (hq : q.Query = "")
    (hf : q.Filters = []) :
    (buildESQuery q).get "query" = some (JVal.obj [("match_all", JVal.obj [])]) := by
  have hl := filterLoop_length_pos_iff q.Filters
  simp only [buildESQuery, applySort, hl]
  split_ifs <;> simp_all [JMap.set, JMap.get]

/-- The clauses of the loop correspond one to one, in visiting order, to the entries of
the map, each by the rule of its field name. -/
theorem filterLoop_forall₂ (fs : List (String × JVal)) :
    List.Forall₂ (fun (e : String × JVal) (c : JVal) =>
      (e.1 = "package_type" → c = JVal.obj [("nested", JVal.obj [
          ("path", JVal.str "packages"),
          ("query", JVal.obj [("term", JVal.obj [("packages.type", e.2)])])])]) ∧
      (e.1 = "transport" → c = JVal.obj [("nested", JVal.obj [
          ("path", JVal.str "remotes"),
          ("query", JVal.obj [("term", JVal.obj [("remotes.transport", e.2)])])])]) ∧
      (e.1 ≠ "package_type" → e.1 ≠ "transport" →
        c = JVal.obj [("term", JVal.obj [(e.1, e.2)])]))
      fs (filterLoop [] fs) := by
  induction fs with
  | nil => simp [filterLoop]
  | cons e rest ih =>
    obtain ⟨field, value⟩ := e
    simp only [filterLoop]
    rw [filterLoop_eq_append]
    by_cases h1 : field = "package_type"
    · subst h1
      simp only [filterStep, if_true, List.nil_append, List.singleton_append]
      have hne : ("package_type" : String) ≠ "transport" := by decide
      exact List.Forall₂.cons ⟨fun _ => rfl, fun h => absurd h hne, fun h => absurd rfl h⟩ ih
    · by_cases h2 : field = "transport"
      · subst h2
        simp only [filterStep, List.nil_append, List.singleton_append]
        have hne : ("transport" : String) ≠ "package_type" := by decide
        exact List.Forall₂.cons ⟨fun h => absurd h hne, fun _ => rfl, fun _ h => absurd rfl h⟩ ih
      · simp only [filterStep, if_neg h1, if_neg h2, List.nil_append, List.singleton_append]
        exact List.Forall₂.cons ⟨fun h => absurd h h1, fun h => absurd h h2, fun _ _ => rfl⟩ ih

/-- Claim C1. The filter clauses of the translated query correspond one to one to the
entries of `Filters` (same number, matched pairwise in the order in which the map is
visited, so none is missing and none is extra): an entry `package_type = v` gives the
nested clause on path `packages` with the single term `packages.type: v`, an entry
`transport = v` the nested clause on path `remotes` with the single term
`remotes.transport: v`, and any other entry `f = v` the direct clause `term {f: v}`.
Whenever the query has a text or a filter entry these clauses are the whole list
`query.bool.filter`; with neither, the query is `match_all` and there is no clause. -/
theorem buildESQuery_filter_clauses (q : SearchQuery) :
    ∃ cs : List JVal,
      List.Forall₂ (fun (e : String × JVal) (c : JVal) =>
        (e.1 = "package_type" → c = JVal.obj [("nested", JVal.obj [
            ("path", JVal.str "packages"),
            ("query", JVal.obj [("term", JVal.obj [("packages.type", e.2)])])])]) ∧
        (e.1 = "transport" → c = JVal.obj [("nested", JVal.obj [
            ("path", JVal.str "remotes"),
            ("query", JVal.obj [("term", JVal.obj [("remotes.transport", e.2)])])])]) ∧
        (e.1 ≠ "package_type" → e.1 ≠ "transport" →
          c = JVal.obj [("term", JVal.obj [(e.1, e.2)])]))
        q.Filters cs ∧
      (q.Query ≠ "" ∨ q.Filters ≠ [] →
        (((buildESQuery q).get "query").bind (fun v => v.field "bool")).bind
          (fun v => v.field "filter") = some (JVal.arr cs)) ∧
      (q.Query = "" ∧ q.Filters = [] →
        cs = [] ∧ (buildESQuery q).get "query" = some (JVal.obj [("match_all", JVal.obj [])])) := by
  refine ⟨filterLoop [] q.Filters, filterLoop_forall₂ q.Filters, ?_, ?_⟩
  · intro h
    rw [buildESQuery_get_query_bool q h]
    simp [JVal.field, JMap.get]
  · rintro ⟨hq, hf⟩
    refine ⟨?_, buildESQuery_get_query_match_all q hq hf⟩
    rw [hf]
    rfl

/-- Claim C2. With a non-empty text `t` the value under "query" is a bool query whose
"must" list is the single `multi_match` clause on `t` over the fields `name^3`,
`description^2`, `author`, `categories` (in that order) with type `best_fields`, and
whose "filter" list is the list of clauses that the filter loop builds from `Filters`. -/
theorem buildESQuery_text_query (q : SearchQuery) (ht : q.Query ≠ "") :
    (buildESQuery q).get "query" =
      some (JVal.obj [("bool", JVal.obj [
        ("must", JVal.arr [JVal.obj [("multi_match", JVal.obj [
          ("query", JVal.str q.Query),
          ("fields", JVal.arr [JVal.str "name^3", JVal.str "description^2",
            JVal.str "author", JVal.str "categories"]),
          ("type", JVal.str "best_fields")])]]),
        ("filter", JVal.arr (filterLoop [] q.Filters))])]) := by
  rw [buildESQuery_get_query_bool q (Or.inl ht), if_pos ht]

/-- The example request of the specification: text "weather", filter
`package_type = "npm"`, sort `popularity`, offset 0, limit 20.  Its translation is the
bool query with the `multi_match` on "weather" and the nested clause on `packages`, and
its sort is `popularity_score` descending. -/
theorem buildESQuery_text_query_weather :
    ("weather" : String) ≠ "" ∧
    (buildESQuery ⟨"weather", [("package_type", JVal.str "npm")], "popularity", 0, 20⟩).get "query" =
      some (JVal.obj [("bool", JVal.obj [
        ("must", JVal.arr [JVal.obj [("multi_match", JVal.obj [
          ("query", JVal.str "weather"),
          ("fields", JVal.arr [JVal.str "name^3", JVal.str "description^2",
            JVal.str "author", JVal.str "categories"]),
          ("type", JVal.str "best_fields")])]]),
        ("filter", JVal.arr [JVal.obj [("nested", JVal.obj [
          ("path", JVal.str "packages"),
          ("query", JVal.obj [("term", JVal.obj [("packages.type", JVal.str "npm")])])])]])])]) ∧
    (buildESQuery ⟨"weather", [("package_type", JVal.str "npm")], "popularity", 0, 20⟩).get "sort" =
      some (JVal.arr [JVal.obj [("popularity_score", JVal.obj [("order", JVal.str "desc")])]]) :=
  ⟨by decide,
   buildESQuery_text_query ⟨"weather", [("package_type", JVal.str "npm")], "popularity", 0, 20⟩
     (by decide),
   rfl⟩

/-- Claim C3. The value under "query" is `match_all` exactly when the text is empty and
`Filters` has no entry.  In every other case it is a bool query with a "must" and a
"filter" list, the latter being the clauses built from `Filters`; and when the text is
empty the "must" list is empty. -/
theorem buildESQuery_match_all_iff (q : SearchQuery) :
    ((buildESQuery q).get "query" = some (JVal.obj [("match_all", JVal.obj [])]) ↔
      (q.Query = "" ∧ q.Filters = [])) ∧
    (¬ (q.Query = "" ∧ q.Filters = []) →
      ∃ must : List JVal,
        (buildESQuery q).get "query" = some (JVal.obj [("bool", JVal.obj [
          ("must", JVal.arr must), ("filter", JVal.arr (filterLoop [] q.Filters))])]) ∧
        (q.Query = "" → must = [])) := by
  have hbool : ¬ (q.Query = "" ∧ q.Filters = []) → q.Query ≠ "" ∨ q.Filters ≠ [] := by
    intro h
    by_cases hq : q.Query = ""
    · exact Or.inr (fun hf => h ⟨hq, hf⟩)
    · exact Or.inl hq
  refine ⟨⟨?_, fun h => buildESQuery_get_query_match_all q h.1 h.2⟩, ?_⟩
  · intro h
    by_contra hne
    rw [buildESQuery_get_query_bool q (hbool hne)] at h
    simp at h
  · intro hne
    refine ⟨_, buildESQuery_get_query_bool q (hbool hne), ?_⟩
    intro hq
    simp [hq]

/-- Claim C4. The value under "sort" depends on the sort string alone: `popularity`,
`trending`, `rating` and `recent` give the one-element list that orders by
`popularity_score`, `trending_score`, `rating_average` and `last_updated` descending,
every other string (so `relevance`, the empty string and any unknown value) gives the
empty list, and two requests with the same sort string get the same sort. -/
theorem buildESQuery_sort (q : SearchQuery) :
    (q.SortKey = "popularity" → (buildESQuery q).get "sort" =
      some (JVal.arr [JVal.obj [("popularity_score", JVal.obj [("order", JVal.str "desc")])]])) ∧
    (q.SortKey = "trending" → (buildESQuery q).get "sort" =
      some (JVal.arr [JVal.obj [("trending_score", JVal.obj [("order", JVal.str "desc")])]])) ∧
    (q.SortKey = "rating" → (buildESQuery q).get "sort" =
      some (JVal.arr [JVal.obj [("rating_average", JVal.obj [("order", JVal.str "desc")])]])) ∧
    (q.SortKey = "recent" → (buildESQuery q).get "sort" =
      some (JVal.arr [JVal.obj [("last_updated", JVal.obj [("order", JVal.str "desc")])]])) ∧
    (q.SortKey ≠ "popularity" → q.SortKey ≠ "trending" → q.SortKey ≠ "rating" →
      q.SortKey ≠ "recent" → (buildESQuery q).get "sort" = some (JVal.arr [])) ∧
    (∀ q2 : SearchQuery, q2.SortKey = q.SortKey →
      (buildESQuery q2).get "sort" = (buildESQuery q).get "sort") := by
  have key : ∀ r : SearchQuery, (buildESQuery r).get "sort" =
      some (JVal.arr (if r.SortKey = "popularity" then
          [JVal.obj [("popularity_score", JVal.obj [("order", JVal.str "desc")])]]
        else if r.SortKey = "trending" then
          [JVal.obj [("trending_score", JVal.obj [("order", JVal.str "desc")])]]
        else if r.SortKey = "rating" then
          [JVal.obj [("rating_average", JVal.obj [("order", JVal.str "desc")])]]
        else if r.SortKey = "recent" then
          [JVal.obj [("last_updated", JVal.obj [("order", JVal.str "desc")])]]
        else [])) := by
    intro r
    simp only [buildESQuery, applySort]
    split_ifs <;> simp_all [JMap.set, JMap.get]
  refine ⟨?_, ?_, ?_, ?_, ?_, ?_⟩
  · intro h; rw [key, h]; rfl
  · intro h; rw [key, h]; rfl
  · intro h; rw [key, h]; rfl
  · intro h; rw [key, h]; rfl
  · intro h1 h2 h3 h4; rw [key, if_neg h1, if_neg h2, if_neg h3, if_neg h4]
  · intro q2 h; rw [key, key, h]

/-- Claim C5. The value under "aggs" is the same constant for every request: exactly the
three aggregations `categories` (terms on `categories`, size 20), `package_types`
(nested on `packages`, sub-aggregation `types` = terms on `packages.type`, size 10) and
`transports` (nested on `remotes`, sub-aggregation `types` = terms on
`remotes.transport`, size 10). -/
theorem buildESQuery_aggs (q : SearchQuery) :
    (buildESQuery q).get "aggs" = some (JVal.obj [
      ("categories", JVal.obj [
        ("terms", JVal.obj [("field", JVal.str "categories"), ("size", JVal.int 20)])]),
      ("package_types", JVal.obj [
        ("nested", JVal.obj [("path", JVal.str "packages")]),
        ("aggs", JVal.obj [
          ("types", JVal.obj [
            ("terms", JVal.obj [("field", JVal.str "packages.type"), ("size", JVal.int 10)])])])]),
      ("transports", JVal.obj [
        ("nested", JVal.obj [("path", JVal.str "remotes")]),
        ("aggs", JVal.obj [
          ("types", JVal.obj [
            ("terms", JVal.obj [("field", JVal.str "remotes.transport"), ("size", JVal.int 10)])])])])]) := by
  simp only [buildESQuery, applySort]
  split_ifs <;> simp [JMap.set, JMap.get]

/-! ## Theorems: `parseFacets` -/

/-- What the test `bucketOk` says of an object. -/
theorem bucketOk_obj (kvs : List (String × JVal)) (h : bucketOk (JVal.obj kvs) = true) :
    ∃ k c, JMap.get kvs "key" = some (JVal.str k) ∧
      JMap.get kvs "doc_count" = some (JVal.num c) := by
  simp only [bucketOk] at h
  split at h
  · rename_i k c hk hc
    exact ⟨k, c, hk, hc⟩
  · exact absurd h Bool.false_ne_true

/-- What the test `bucketInt` says of an object. -/
theorem bucketInt_obj (kvs : List (String × JVal)) (h : bucketInt (JVal.obj kvs) = true) :
    ∃ k c, JMap.get kvs "key" = some (JVal.str k) ∧
      JMap.get kvs "doc_count" = some (JVal.num c) ∧
      c.den = 1 ∧ minInt ≤ c.num ∧ c.num ≤ maxInt := by
  simp only [bucketInt] at h
  split at h
  · rename_i k c hk hc
    simp only [decide_eq_true_eq] at h
    exact ⟨k, c, hk, hc, h⟩
  · exact absurd h Bool.false_ne_true

/-- On a list whose object entries are well formed the bucket loop ends normally and
appends the decoded values. -/
theorem bucketLoop_of_ok (values : List FacetValue) (buckets : List JVal)
    (h : buckets.all bucketOk = true) :
    bucketLoop values buckets = some (values ++ decodedValues buckets) := by
  induction buckets generalizing values with
  | nil => simp [bucketLoop, decodedValues]
  | cons b rest ih =>
    rw [List.all_cons, Bool.and_eq_true] at h
    obtain ⟨hb, hrest⟩ := h
    cases b with
    | obj kvs =>
      obtain ⟨k, c, hk, hc⟩ := bucketOk_obj kvs hb
      simp only [bucketLoop, decodedValues, hk, hc]
      rw [ih _ hrest, List.append_assoc]
      rfl
    | null => simpa [bucketLoop, decodedValues] using ih values hrest
    | bool _ => simpa [bucketLoop, decodedValues] using ih values hrest
    | num _ => simpa [bucketLoop, decodedValues] using ih values hrest
    | int _ => simpa [bucketLoop, decodedValues] using ih values hrest
    | str _ => simpa [bucketLoop, decodedValues] using ih values hrest
    | arr _ => simpa [bucketLoop, decodedValues] using ih values hrest

/-- A value is decoded exactly when the list has an object entry. -/
theorem decodedValues_ne_nil_iff (buckets : List JVal) (h : buckets.all bucketOk = true) :
    decodedValues buckets ≠ [] ↔ ∃ b ∈ buckets, isObject b = true := by
  induction buckets with
  | nil => simp [decodedValues]
  | cons b rest ih =>
    rw [List.all_cons, Bool.and_eq_true] at h
    obtain ⟨hb, hrest⟩ := h
    cases b with
    | obj kvs =>
      obtain ⟨k, c, hk, hc⟩ := bucketOk_obj kvs hb
      simp [decodedValues, hk, hc, isObject]
    | null => simpa [decodedValues, isObject] using ih hrest
    | bool _ => simpa [decodedValues, isObject] using ih hrest
    | num _ => simpa [decodedValues, isObject] using ih hrest
    | int _ => simpa [decodedValues, isObject] using ih hrest
    | str _ => simpa [decodedValues, isObject] using ih hrest
    | arr _ => simpa [decodedValues, isObject] using ih hrest

/-- Truncation leaves a whole number that is a value of `int` as it is. -/
theorem floatToInt_of_whole (c : ℚ) (hden : c.den = 1) (hlo : minInt ≤ c.num)
    (hhi : c.num ≤ maxInt) : floatToInt c = c.num := by
  unfold floatToInt
  simp [hden, hlo, hhi]

/-- When the counts are whole numbers in the range of `int`, the decoded values are the
(key, doc_count) pairs of the list. -/
theorem decodedValues_eq_bucketPairs (buckets : List JVal) (h : buckets.all bucketInt = true) :
    decodedValues buckets = bucketPairs buckets := by
  induction buckets with
  | nil => simp [decodedValues, bucketPairs]
  | cons b rest ih =>
    rw [List.all_cons, Bool.and_eq_true] at h
    obtain ⟨hb, hrest⟩ := h
    cases b with
    | obj kvs =>
      obtain ⟨k, c, hk, hc, hw⟩ := bucketInt_obj kvs hb
      simp only [decodedValues, bucketPairs, hk, hc]
      rw [floatToInt_of_whole c hw.1 hw.2.1 hw.2.2, ih hrest]
    | null => simpa [decodedValues, bucketPairs] using ih hrest
    | bool _ => simpa [decodedValues, bucketPairs] using ih hrest
    | num _ => simpa [decodedValues, bucketPairs] using ih hrest
    | int _ => simpa [decodedValues, bucketPairs] using ih hrest
    | str _ => simpa [decodedValues, bucketPairs] using ih hrest
    | arr _ => simpa [decodedValues, bucketPairs] using ih hrest

/-- A bucket that passes the stricter test passes the weaker one. -/
theorem bucketOk_of_bucketInt (b : JVal) (h : bucketInt b = true) : bucketOk b = true := by
  cases b with
  | obj kvs =>
    obtain ⟨k, c, hk, hc, _⟩ := bucketInt_obj kvs h
    simp [bucketOk, hk, hc]
  | _ => rfl

/-- On well-formed buckets the facet block ends normally and appends the facet when it
has a value. -/
theorem addFacet_of_ok (facets : List Facet) (field : String) (buckets : List JVal)
    (h : buckets.all bucketOk = true) :
    addFacet facets field buckets = some (facets ++
      (if (decodedValues buckets).length > 0 then [⟨field, decodedValues buckets⟩] else [])) := by
  unfold addFacet
  rw [bucketLoop_of_ok [] buckets h]
  simp only [List.nil_append]
  split_ifs <;> simp

/-- The three bucket lists of a well-formed aggregation map are well formed. -/
theorem bucketsAll_iff (ok : JVal → Bool) (aggs : JMap) :
    bucketsAll ok aggs = true ↔
      (∀ bs, bucketsAt aggs ["categories", "buckets"] = some bs → bs.all ok = true) ∧
      (∀ bs, bucketsAt aggs ["package_types", "types", "buckets"] = some bs →
        bs.all ok = true) ∧
      (∀ bs, bucketsAt aggs ["transports", "types", "buckets"] = some bs →
        bs.all ok = true) := by
  simp only [bucketsAll, bucketPath, List.all_cons, List.all_nil, Bool.and_true,
    Bool.and_eq_true]
  have e1 : ("package_type" : String) ≠ "categories" := by decide
  have e2 : ("transport" : String) ≠ "categories" := by decide
  have e3 : ("transport" : String) ≠ "package_type" := by decide
  simp only [if_true, if_neg e1, if_neg e2, if_neg e3]
  constructor
  · rintro ⟨h1, h2, h3⟩
    refine ⟨?_, ?_, ?_⟩
    · intro bs hbs; rw [hbs] at h1; exact h1
    · intro bs hbs; rw [hbs] at h2; exact h2
    · intro bs hbs; rw [hbs] at h3; exact h3
  · rintro ⟨h1, h2, h3⟩
    refine ⟨?_, ?_, ?_⟩
    · split
      · rename_i bs hbs; exact h1 bs hbs
      · rfl
    · split
      · rename_i bs hbs; exact h2 bs hbs
      · rfl
    · split
      · rename_i bs hbs; exact h3 bs hbs
      · rfl

/-- The result of `parseFacets` on a well-formed aggregation map: it ends normally, and
its result is made of the facets of the three kinds, in this order. -/
theorem parseFacets_of_ok (aggs : JMap) (h : bucketsAll bucketOk aggs = true) :
    parseFacets aggs = some (facetOf aggs "categories" ++ facetOf aggs "package_type" ++
      facetOf aggs "transport") := by
  obtain ⟨h1, h2, h3⟩ := (bucketsAll_iff bucketOk aggs).1 h
  have e1 : ("package_type" : String) ≠ "categories" := by decide
  have e2 : ("transport" : String) ≠ "categories" := by decide
  have e3 : ("transport" : String) ≠ "package_type" := by decide
  have c1 : ∀ facets, parseCategories aggs facets =
      some (facets ++ facetOf aggs "categories") := by
    intro facets
    simp only [facetOf, bucketPath, if_true]
    simp only [bucketsAt, JMap.path] at h1 ⊢
    unfold parseCategories
    split
    · rename_i catAgg hcat
      split
      · rename_i bs hbs
        rw [addFacet_of_ok _ _ _ (h1 bs (by simp [hcat, hbs]))]
      · simp
    · simp
  have c2 : ∀ facets, parsePackageTypes aggs facets =
      some (facets ++ facetOf aggs "package_type") := by
    intro facets
    simp only [facetOf, bucketPath, if_true, if_neg e1]
    simp only [bucketsAt, JMap.path] at h2 ⊢
    unfold parsePackageTypes
    split
    · rename_i pkgAgg hpkg
      split
      · rename_i typesAgg htypes
        split
        · rename_i bs hbs
          rw [addFacet_of_ok _ _ _ (h2 bs (by simp [hpkg, htypes, hbs]))]
        · simp
      · simp
    · simp
  have c3 : ∀ facets, parseTransports aggs facets =
      some (facets ++ facetOf aggs "transport") := by
    intro facets
    simp only [facetOf, bucketPath, if_true, if_neg e2, if_neg e3]
    simp only [bucketsAt, JMap.path] at h3 ⊢
    unfold parseTransports
    split
    · rename_i transAgg htrans
      split
      · rename_i typesAgg htypes
        split
        · rename_i bs hbs
          rw [addFacet_of_ok _ _ _ (h3 bs (by simp [htrans, htypes, hbs]))]
        · simp
      · simp
    · simp
  unfold parseFacets
  rw [c1, Option.some_bind, c2, Option.some_bind, c3, List.nil_append]

/-- The facets that one kind contributes. -/
theorem mem_facetOf (aggs : JMap) (field : String) (f : Facet) :
    f ∈ facetOf aggs field ↔
      ∃ bs, bucketsAt aggs (bucketPath field) = some bs ∧ decodedValues bs ≠ [] ∧
        f = ⟨field, decodedValues bs⟩ := by
  unfold facetOf
  split
  · rename_i bs hbs
    have hsame : ∀ bs2, bucketsAt aggs (bucketPath field) = some bs2 → bs2 = bs := by
      intro bs2 h2
      rw [hbs] at h2
      exact (Option.some.inj h2).symm
    split_ifs with hpos
    · have hne : decodedValues bs ≠ [] := List.length_pos.1 hpos
      simp only [List.mem_singleton]
      constructor
      · intro hf; exact ⟨bs, hbs, hne, hf⟩
      · rintro ⟨bs2, h2, _, hf⟩
        rw [hsame bs2 h2] at hf
        exact hf
    · have hnil : decodedValues bs = [] := by
        cases hd : decodedValues bs with
        | nil => rfl
        | cons v vs => exact absurd (by simp [hd]) hpos
      simp only [List.not_mem_nil, false_iff]
      rintro ⟨bs2, h2, hne, _⟩
      rw [hsame bs2 h2] at hne
      exact hne hnil
  · rename_i hnone
    simp [hnone]

/-- Membership in the result of `parseFacets` on a well-formed aggregation map. -/
theorem mem_parseFacets_result (aggs : JMap) (f : Facet) :
    f ∈ facetOf aggs "categories" ++ facetOf aggs "package_type" ++ facetOf aggs "transport" ↔
      ∃ field ∈ ["categories", "package_type", "transport"],
        ∃ bs, bucketsAt aggs (bucketPath field) = some bs ∧ decodedValues bs ≠ [] ∧
          f = ⟨field, decodedValues bs⟩ := by
  simp only [List.mem_append, mem_facetOf, List.mem_cons, List.mem_singleton,
    List.not_mem_nil, or_false, exists_eq_or_imp, exists_eq_left, or_assoc]

/-- Claim C6, as amended. On an aggregation map whose object buckets each have a string
key and a numeric doc_count, `parseFacets` ends normally, and it emits a facet for a kind
(`categories` from `categories.buckets`, `package_type` from `package_types.types.buckets`,
`transport` from `transports.types.buckets`) if and only if that bucket list is present
and has at least one entry that is an object.  Hence every emitted facet has a value, a
category aggregation with zero buckets gives no `categories` facet, and the nil or
empty map gives the empty facet list. -/
theorem parseFacets_emits_iff (aggs : JMap) (h : bucketsAll bucketOk aggs = true) :
    ∃ facets, parseFacets aggs = some facets ∧
      (∀ field ∈ ["categories", "package_type", "transport"],
        ((∃ f ∈ facets, f.Field = field) ↔
          ∃ bs, bucketsAt aggs (bucketPath field) = some bs ∧
            ∃ b ∈ bs, isObject b = true)) ∧
      (∀ f ∈ facets, f.Values ≠ []) ∧
      (bucketsAt aggs (bucketPath "categories") = some [] →
        ∀ f ∈ facets, f.Field ≠ "categories") ∧
      (aggs = [] → facets = []) := by
  refine ⟨_, parseFacets_of_ok aggs h, ?_, ?_, ?_, ?_⟩
  · intro field hfield
    constructor
    · rintro ⟨f, hf, hfield2⟩
      obtain ⟨g, hg, bs, hbs, hne, rfl⟩ := (mem_parseFacets_result aggs f).1 hf
      have hgf : g = field := hfield2
      subst hgf
      have hok : bs.all bucketOk = true := by
        have h3 := (bucketsAll_iff bucketOk aggs).1 h
        simp only [List.mem_cons, List.mem_singleton, List.not_mem_nil, or_false] at hg
        rcases hg with rfl | rfl | rfl
        · exact h3.1 bs hbs
        · exact h3.2.1 bs hbs
        · exact h3.2.2 bs hbs
      exact ⟨bs, hbs, (decodedValues_ne_nil_iff bs hok).1 hne⟩
    · rintro ⟨bs, hbs, hobj⟩
      have hok : bs.all bucketOk = true := by
        have h3 := (bucketsAll_iff bucketOk aggs).1 h
        simp only [List.mem_cons, List.mem_singleton, List.not_mem_nil, or_false] at hfield
        rcases hfield with rfl | rfl | rfl
        · exact h3.1 bs hbs
        · exact h3.2.1 bs hbs
        · exact h3.2.2 bs hbs
      exact ⟨⟨field, decodedValues bs⟩,
        (mem_parseFacets_result aggs _).2
          ⟨field, hfield, bs, hbs, (decodedValues_ne_nil_iff bs hok).2 hobj, rfl⟩, rfl⟩
  · intro f hf
    obtain ⟨g, _, bs, _, hne, rfl⟩ := (mem_parseFacets_result aggs f).1 hf
    exact hne
  · intro hzero f hf
    obtain ⟨g, _, bs, hbs, hne, rfl⟩ := (mem_parseFacets_result aggs f).1 hf
    intro hg
    have hgc : g = "categories" := hg
    subst hgc
    rw [hzero] at hbs
    cases hbs
    exact hne rfl
  · intro hnil
    subst hnil
    rfl

/-- Claim C6 on the sample aggregation section, which is well formed: the result exists and
each of its facets has a value. -/
theorem parseFacets_emits_iff_sample :
    bucketsAll bucketOk sampleAggs = true ∧
    ∃ facets, parseFacets sampleAggs = some facets ∧ ∀ f ∈ facets, f.Values ≠ [] :=
  ⟨by decide, (parseFacets_emits_iff sampleAggs (by decide)).imp fun _ hf => ⟨hf.1, hf.2.2.1⟩⟩

/-- Claim C6 as stated fails: the category aggregation below is present and its bucket
list has one entry, the number 1, which is no object (so the condition on object buckets
holds); the entry is skipped and no `categories` facet is emitted. -/
theorem parseFacets_nonobject_bucket_no_facet :
    bucketsAll bucketOk [("categories", JVal.obj [("buckets", JVal.arr [JVal.num 1])])] = true ∧
    (∃ bs, bucketsAt [("categories", JVal.obj [("buckets", JVal.arr [JVal.num 1])])]
        (bucketPath "categories") = some bs ∧ bs.length = 1) ∧
    parseFacets [("categories", JVal.obj [("buckets", JVal.arr [JVal.num 1])])] = some [] :=
  ⟨by decide, ⟨[JVal.num 1], rfl, rfl⟩, by decide⟩

/-- Each facet kind contributes at most one facet, named after the kind. -/
theorem facetOf_fields (aggs : JMap) (field : String) :
    (facetOf aggs field).map Facet.Field = [] ∨ (facetOf aggs field).map Facet.Field = [field] := by
  unfold facetOf
  split
  · split_ifs
    · exact Or.inr rfl
    · exact Or.inl rfl
  · exact Or.inl rfl

/-- Each object entry of a list with whole counts gives one pair. -/
theorem bucketPairs_length (buckets : List JVal) (h : buckets.all bucketInt = true) :
    (bucketPairs buckets).length = (buckets.filter isObject).length := by
  induction buckets with
  | nil => rfl
  | cons b rest ih =>
    rw [List.all_cons, Bool.and_eq_true] at h
    obtain ⟨hb, hrest⟩ := h
    cases b with
    | obj kvs =>
      obtain ⟨k, c, hk, hc, _⟩ := bucketInt_obj kvs hb
      simp [bucketPairs, hk, hc, isObject, ih hrest]
    | null => simpa [bucketPairs, isObject] using ih hrest
    | bool _ => simpa [bucketPairs, isObject] using ih hrest
    | num _ => simpa [bucketPairs, isObject] using ih hrest
    | int _ => simpa [bucketPairs, isObject] using ih hrest
    | str _ => simpa [bucketPairs, isObject] using ih hrest
    | arr _ => simpa [bucketPairs, isObject] using ih hrest

/-- Claim C7, as amended. On an aggregation map whose object buckets each have a string
key and a whole-number doc_count that is a value of the type `int`, `parseFacets` ends
normally with at most three facets, whose field names are distinct and form a
subsequence of `categories`, `package_type`, `transport` (so they appear in that
order); and the values of each facet are exactly the (key, doc_count) pairs of the
object entries of its bucket list, one pair for each, in the order of the list. -/
theorem parseFacets_values (aggs : JMap) (h : bucketsAll bucketInt aggs = true) :
    ∃ facets, parseFacets aggs = some facets ∧
      facets.length ≤ 3 ∧
      (facets.map Facet.Field).Nodup ∧
      (facets.map Facet.Field).Sublist ["categories", "package_type", "transport"] ∧
      (∀ f ∈ facets, ∃ bs, bucketsAt aggs (bucketPath f.Field) = some bs ∧
        f.Values = bucketPairs bs ∧
        f.Values.length = (bs.filter isObject).length) := by
  have hint := (bucketsAll_iff bucketInt aggs).1 h
  have hok : bucketsAll bucketOk aggs = true := by
    rw [bucketsAll_iff]
    refine ⟨fun bs hbs => ?_, fun bs hbs => ?_, fun bs hbs => ?_⟩
    · have := hint.1 bs hbs
      rw [List.all_eq_true] at this ⊢
      exact fun b hb => bucketOk_of_bucketInt b (this b hb)
    · have := hint.2.1 bs hbs
      rw [List.all_eq_true] at this ⊢
      exact fun b hb => bucketOk_of_bucketInt b (this b hb)
    · have := hint.2.2 bs hbs
      rw [List.all_eq_true] at this ⊢
      exact fun b hb => bucketOk_of_bucketInt b (this b hb)
  have hsub : ((facetOf aggs "categories" ++ facetOf aggs "package_type" ++
      facetOf aggs "transport").map Facet.Field).Sublist
      ["categories", "package_type", "transport"] := by
    rw [List.map_append, List.map_append]
    rcases facetOf_fields aggs "categories" with h1 | h1 <;>
    rcases facetOf_fields aggs "package_type" with h2 | h2 <;>
    rcases facetOf_fields aggs "transport" with h3 | h3 <;>
    rw [h1, h2, h3] <;> decide
  have hnodup : (["categories", "package_type", "transport"] : List String).Nodup := by decide
  refine ⟨_, parseFacets_of_ok aggs hok, ?_, hsub.nodup hnodup, hsub, ?_⟩
  · have := hsub.length_le
    simpa using this
  · intro f hf
    obtain ⟨g, hg, bs, hbs, _, rfl⟩ := (mem_parseFacets_result aggs f).1 hf
    have hall : bs.all bucketInt = true := by
      simp only [List.mem_cons, List.mem_singleton, List.not_mem_nil, or_false] at hg
      rcases hg with rfl | rfl | rfl
      · exact hint.1 bs hbs
      · exact hint.2.1 bs hbs
      · exact hint.2.2 bs hbs
    refine ⟨bs, hbs, decodedValues_eq_bucketPairs bs hall, ?_⟩
    show (decodedValues bs).length = _
    rw [decodedValues_eq_bucketPairs bs hall, bucketPairs_length bs hall]

/-- Claim C7 on the sample aggregation section, whose counts are whole numbers in the
range of `int`: the result is the `categories` facet with its two pairs followed by the
`transport` facet with its pair. -/
theorem parseFacets_values_sample :
    bucketsAll bucketInt sampleAggs = true ∧
    (∃ facets, parseFacets sampleAggs = some facets ∧ facets.length ≤ 3) ∧
    parseFacets sampleAggs = some [
      ⟨"categories", [⟨"search", 7⟩, ⟨"weather", 2⟩]⟩,
      ⟨"transport", [⟨"stdio", 3⟩]⟩] :=
  ⟨by decide,
   (parseFacets_values sampleAggs (by decide)).imp fun _ hf => ⟨hf.1, hf.2.1⟩,
   by decide⟩

/-- Claim C7 as stated fails: the doc_count 9223372036854775808 (two to the power 63, a
`float64` and a whole number) is no value of the type `int`, so the count of the facet
value is not the doc_count of the bucket. -/
theorem parseFacets_count_out_of_range :
    bucketsAll bucketWhole [("categories", JVal.obj [("buckets", JVal.arr [
      JVal.obj [("key", JVal.str "search"), ("doc_count", JVal.num 9223372036854775808)]])])]
      = true ∧
    parseFacets [("categories", JVal.obj [("buckets", JVal.arr [
      JVal.obj [("key", JVal.str "search"), ("doc_count", JVal.num 9223372036854775808)]])])]
      = some [⟨"categories", [⟨"search", -9223372036854775808⟩]⟩] ∧
    bucketPairs [JVal.obj [("key", JVal.str "search"),
      ("doc_count", JVal.num 9223372036854775808)]] = [⟨"search", 9223372036854775808⟩] :=
  ⟨by decide, by decide, by decide⟩

/-! ## Theorems: the event queue and the dispatcher -/

/-- Claim C8. For a handler whose queue has the capacity 1000 that `NewEventHandler`
gives it, and an event with a type and a server id: when the queue holds 1000 events
`HandleEvent` answers 503 "Event queue full" and the handler, so the queue with its 1000
events in their order, is unchanged; when it holds fewer than 1000 events `HandleEvent`
answers "accepted" and the queue is the old one with the event appended at the tail.
`HandleEvent` is a total function: in both cases it returns. -/
theorem HandleEvent_enqueue (h : EventHandler) (event : Event)
    (hcap : h.eventQueue.cap = 1000) (htype : event.Typ ≠ "") (hid : event.ServerID ≠ "") :
    (h.eventQueue.buf.length = 1000 →
      HandleEvent h (some event) =
        ({ status := 503, body := [("error", "Event queue full")] }, h)) ∧
    (h.eventQueue.buf.length < 1000 →
      HandleEvent h (some event) =
        ({ status := 200, body := [("status", "accepted")] },
          { searchService := h.searchService,
            eventQueue := { buf := h.eventQueue.buf ++ [event], cap := 1000 } })) := by
  constructor
  · intro hlen
    simp [HandleEvent, htype, hid, hcap, hlen]
  · intro hlen
    simp [HandleEvent, htype, hid, hcap, hlen]

/-- Claim C8 at a queue that holds 1000 events and at the empty queue of a new handler. -/
theorem HandleEvent_enqueue_full_and_empty :
    HandleEvent
        { searchService := emptyStore,
          eventQueue := { buf := List.replicate 1000 (sampleEvent "server_added" "srv-1" "a"),
                          cap := 1000 } }
        (some (sampleEvent "server_deleted" "srv-1" "")) =
      ({ status := 503, body := [("error", "Event queue full")] },
        { searchService := emptyStore,
          eventQueue := { buf := List.replicate 1000 (sampleEvent "server_added" "srv-1" "a"),
                          cap := 1000 } }) ∧
    HandleEvent (NewEventHandler emptyStore) (some (sampleEvent "server_deleted" "srv-1" "")) =
      ({ status := 200, body := [("status", "accepted")] },
        { searchService := emptyStore,
          eventQueue := { buf := [sampleEvent "server_deleted" "srv-1" ""], cap := 1000 } }) :=
  ⟨(HandleEvent_enqueue
      { searchService := emptyStore,
        eventQueue := { buf := List.replicate 1000 (sampleEvent "server_added" "srv-1" "a"),
                        cap := 1000 } }
      (sampleEvent "server_deleted" "srv-1" "") rfl (by decide) (by decide)).1
      (List.length_replicate 1000 _),
   (HandleEvent_enqueue (NewEventHandler emptyStore)
      (sampleEvent "server_deleted" "srv-1" "") rfl (by decide) (by decide)).2 (by decide)⟩

/-- Claim C9. For an event whose type is none of `server_added`, `server_updated` and
`server_deleted`, the body of the loop of `processEvents` calls no handler, whatever the
decoder and the environment, and the index after the step is the index before it. -/
theorem processEvent_unknown_type (unmarshal : JMap → Option ServerDetail) (env : Env)
    (store : Store) (event : Event)
    (hadded : event.Typ ≠ EventServerAdded) (hupdated : event.Typ ≠ EventServerUpdated)
    (hdeleted : event.Typ ≠ EventServerDeleted) :
    processEvent unmarshal env store event = (store, Outcome.unknownType) := by
  simp [processEvent, hadded, hupdated, hdeleted]

/-- Claim C9 at an event of the type `server_renamed`. -/
theorem processEvent_unknown_type_renamed :
    processEvent sampleUnmarshal (calmEnv 40 41 42) emptyStore
        (sampleEvent "server_renamed" "srv-1" "gamma") =
      (emptyStore, Outcome.unknownType) :=
  processEvent_unknown_type sampleUnmarshal (calmEnv 40 41 42) emptyStore
    (sampleEvent "server_renamed" "srv-1" "gamma") (by decide) (by decide) (by decide)

/-- A successful `handleServerAdded` has decoded the payload and written the descriptor,
with the two clock readings, under the id of the descriptor. -/
theorem handleServerAdded_succeeded (unmarshal : JMap → Option ServerDetail) (env : Env)
    (store : Store) (event : Event)
    (h : (handleServerAdded unmarshal env store event).2 = Outcome.succeeded) :
    ∃ d, unmarshal event.Data = some d ∧
      (handleServerAdded unmarshal env store event).1 =
        store.put (if d.ID ≠ "" then d.ID else env.autoID)
          { d with IndexedAt := env.now1, LastUpdated := env.now2 } := by
  unfold handleServerAdded eventDataToServerDetail IndexServer at *
  cases hd : unmarshal event.Data with
  | none => simp [hd] at h
  | some d =>
    refine ⟨d, rfl, ?_⟩
    cases hf : env.indexFails with
    | true => simp [hd, hf] at h
    | false => simp [hf]

/-- A successful `handleServerUpdated` has found a descriptor under the server id of the
event, decoded the payload, and written the decoded descriptor, with the id and the
`IndexedAt` of the one found and the third clock reading, under the id of the one found. -/
theorem handleServerUpdated_succeeded (unmarshal : JMap → Option ServerDetail) (env : Env)
    (store : Store) (event : Event)
    (h : (handleServerUpdated unmarshal env store event).2 = Outcome.succeeded) :
    ∃ cur d, store event.ServerID = some cur ∧ unmarshal event.Data = some d ∧
      (handleServerUpdated unmarshal env store event).1 =
        store.put (if cur.ID ≠ "" then cur.ID else env.autoID)
          { d with ID := cur.ID, IndexedAt := cur.IndexedAt, LastUpdated := env.now3 } := by
  unfold handleServerUpdated GetServer applyUpdates eventDataToServerDetail IndexServer at *
  cases hg : env.getFails with
  | true => simp [hg] at h
  | false =>
    cases hc : store event.ServerID with
    | none => simp [hg, hc] at h
    | some cur =>
      cases hd : unmarshal event.Data with
      | none => simp [hg, hc, hd] at h
      | some d =>
        refine ⟨cur, d, rfl, rfl, ?_⟩
        cases hf : env.indexFails with
        | true => simp [hg, hc, hd, hf] at h
        | false => simp [hf]

/-- A successful `handleServerDeleted` leaves no document under the server id of the
event. -/
theorem handleServerDeleted_succeeded (env : Env) (store : Store) (event : Event)
    (h : (handleServerDeleted env store event).2 = Outcome.succeeded) :
    (handleServerDeleted env store event).1 event.ServerID = none := by
  unfold handleServerDeleted DeleteServer at *
  cases hf : env.deleteFails with
  | true => simp [hf] at h
  | false =>
    cases hc : store event.ServerID with
    | none => simp [hc]
    | some cur => simp [Store.delete]

/-- A step that does not end in success leaves the index as it was. -/
theorem processEvent_store_of_not_succeeded (unmarshal : JMap → Option ServerDetail)
    (env : Env) (store : Store) (event : Event)
    (h : (processEvent unmarshal env store event).2 ≠ Outcome.succeeded) :
    (processEvent unmarshal env store event).1 = store := by
  unfold processEvent at *
  split_ifs at h ⊢
  · unfold handleServerAdded eventDataToServerDetail IndexServer at *
    cases hd : unmarshal event.Data with
    | none => simp
    | some d =>
      cases hf : env.indexFails with
      | true => simp [hf]
      | false => simp [hd, hf] at h
  · unfold handleServerUpdated GetServer applyUpdates eventDataToServerDetail IndexServer at *
    cases hg : env.getFails with
    | true => simp
    | false =>
      cases hc : store event.ServerID with
      | none => simp
      | some cur =>
        cases hd : unmarshal event.Data with
        | none => simp
        | some d =>
          cases hf : env.indexFails with
          | true => simp [hf]
          | false => simp [hg, hc, hd, hf] at h
  · unfold handleServerDeleted DeleteServer at *
    cases hf : env.deleteFails with
    | true => simp
    | false =>
      cases hc : store event.ServerID with
      | none => simp
      | some cur => simp [hf, hc] at h
  · rfl

/-- The step of an added event is `handleServerAdded`. -/
theorem processEvent_added (unmarshal : JMap → Option ServerDetail) (env : Env)
    (store : Store) (event : Event) (h : event.Typ = EventServerAdded) :
    processEvent unmarshal env store event = handleServerAdded unmarshal env store event := by
  simp [processEvent, h]

/-- The step of an updated event is `handleServerUpdated`. -/
theorem processEvent_updated (unmarshal : JMap → Option ServerDetail) (env : Env)
    (store : Store) (event : Event) (h : event.Typ = EventServerUpdated) :
    processEvent unmarshal env store event = handleServerUpdated unmarshal env store event := by
  have hne : EventServerUpdated ≠ EventServerAdded := by decide
  simp [processEvent, h, hne]

/-- The step of a deleted event is `handleServerDeleted`. -/
theorem processEvent_deleted (unmarshal : JMap → Option ServerDetail) (env : Env)
    (store : Store) (event : Event) (h : event.Typ = EventServerDeleted) :
    processEvent unmarshal env store event = handleServerDeleted env store event := by
  have hne1 : EventServerDeleted ≠ EventServerAdded := by decide
  have hne2 : EventServerDeleted ≠ EventServerUpdated := by decide
  simp [processEvent, h, hne1, hne2]

/-- A step that ends in success belongs to an event of one of the three known types. -/
theorem processEvent_succeeded_type (unmarshal : JMap → Option ServerDetail) (env : Env)
    (store : Store) (event : Event)
    (h : (processEvent unmarshal env store event).2 = Outcome.succeeded) :
    event.Typ = EventServerAdded ∨ event.Typ = EventServerUpdated ∨
      event.Typ = EventServerDeleted := by
  by_contra hne
  simp only [not_or] at hne
  have hstep : processEvent unmarshal env store event = (store, Outcome.unknownType) := by
    simp [processEvent, hne.1, hne.2.1, hne.2.2]
  rw [hstep] at h
  exact Outcome.noConfusion h

/-- The effect on the entry of `e` of a successful step for `e`, when the descriptor stored
under `e` carries the id `e` and the payload of an added event carries the id `e`. -/
theorem processEvent_effect (unmarshal : JMap → Option ServerDetail) (env : Env)
    (store : Store) (event : Event) (e : String) (he : e ≠ "")
    (hstore : ∀ d, store e = some d → d.ID = e)
    (hid : event.ServerID = e)
    (hadded : event.Typ = EventServerAdded → ∀ d, unmarshal event.Data = some d → d.ID = e)
    (h : (processEvent unmarshal env store event).2 = Outcome.succeeded) :
    (event.Typ = EventServerAdded → ∃ d, unmarshal event.Data = some d ∧
      (processEvent unmarshal env store event).1 e =
        some { d with IndexedAt := env.now1, LastUpdated := env.now2 }) ∧
    (event.Typ = EventServerUpdated → ∃ cur d, store e = some cur ∧
      unmarshal event.Data = some d ∧
      (processEvent unmarshal env store event).1 e =
        some { d with ID := e, IndexedAt := cur.IndexedAt, LastUpdated := env.now3 }) ∧
    (event.Typ = EventServerDeleted → (processEvent unmarshal env store event).1 e = none) := by
  refine ⟨fun ht => ?_, fun ht => ?_, fun ht => ?_⟩
  · rw [processEvent_added unmarshal env store event ht] at h ⊢
    obtain ⟨d, hd, hres⟩ := handleServerAdded_succeeded unmarshal env store event h
    have hde : d.ID = e := hadded ht d hd
    refine ⟨d, hd, ?_⟩
    rw [hres, hde]
    simp [Store.put, he]
  · rw [processEvent_updated unmarshal env store event ht] at h ⊢
    obtain ⟨cur, d, hcur, hd, hres⟩ := handleServerUpdated_succeeded unmarshal env store event h
    rw [hid] at hcur
    have hce : cur.ID = e := hstore cur hcur
    refine ⟨cur, d, hcur, hd, ?_⟩
    rw [hres, hce]
    simp [Store.put, he]
  · rw [processEvent_deleted unmarshal env store event ht] at h ⊢
    have := handleServerDeleted_succeeded env store event h
    rw [hid] at this
    exact this

/-- A step for `e` keeps the property that the descriptor stored under `e` carries the
id `e`. -/
theorem processEvent_keeps_id (unmarshal : JMap → Option ServerDetail) (env : Env)
    (store : Store) (event : Event) (e : String) (he : e ≠ "")
    (hstore : ∀ d, store e = some d → d.ID = e)
    (hid : event.ServerID = e)
    (hadded : event.Typ = EventServerAdded → ∀ d, unmarshal event.Data = some d → d.ID = e) :
    ∀ d, (processEvent unmarshal env store event).1 e = some d → d.ID = e := by
  by_cases h : (processEvent unmarshal env store event).2 = Outcome.succeeded
  · obtain ⟨h1, h2, h3⟩ :=
      processEvent_effect unmarshal env store event e he hstore hid hadded h
    intro d hd
    rcases processEvent_succeeded_type unmarshal env store event h with ht | ht | ht
    · obtain ⟨d0, hd0, hres⟩ := h1 ht
      rw [hres] at hd
      cases hd
      exact hadded ht d0 hd0
    · obtain ⟨cur, d0, _, _, hres⟩ := h2 ht
      rw [hres] at hd
      cases hd
      rfl
    · rw [h3 ht] at hd
      cases hd
  · rw [processEvent_store_of_not_succeeded unmarshal env store event h]
    exact hstore

/-- The run over a sequence split at one of its events. -/
theorem processEvents_split (unmarshal : JMap → Option ServerDetail) (store : Store)
    (pre post : List (Env × Event)) (env : Env) (event : Event) :
    processEvents unmarshal store (pre ++ (env, event) :: post) =
      processEvents unmarshal
        (processEvent unmarshal env (processEvents unmarshal store pre) event).1 post := by
  induction pre generalizing store with
  | nil => rfl
  | cons p rest ih =>
    obtain ⟨env0, event0⟩ := p
    simp only [List.cons_append, processEvents]
    exact ih _

/-- The outcomes of a run over a sequence split at one of its events. -/
theorem outcomes_split (unmarshal : JMap → Option ServerDetail) (store : Store)
    (pre post : List (Env × Event)) (env : Env) (event : Event) :
    outcomes unmarshal store (pre ++ (env, event) :: post) =
      outcomes unmarshal store pre ++
        (processEvent unmarshal env (processEvents unmarshal store pre) event).2 ::
          outcomes unmarshal
            (processEvent unmarshal env (processEvents unmarshal store pre) event).1 post := by
  induction pre generalizing store with
  | nil => rfl
  | cons p rest ih =>
    obtain ⟨env0, event0⟩ := p
    show _ :: outcomes unmarshal _ (rest ++ (env, event) :: post) = _
    rw [ih]
    rfl

/-- There is one outcome for each event. -/
theorem outcomes_length (unmarshal : JMap → Option ServerDetail) (store : Store)
    (es : List (Env × Event)) : (outcomes unmarshal store es).length = es.length := by
  induction es generalizing store with
  | nil => rfl
  | cons p rest ih =>
    obtain ⟨env0, event0⟩ := p
    simp only [outcomes, List.length_cons, ih]

/-- A run without a success leaves the index as it was. -/
theorem processEvents_of_no_success (unmarshal : JMap → Option ServerDetail) (store : Store)
    (es : List (Env × Event))
    (h : ∀ o ∈ outcomes unmarshal store es, o ≠ Outcome.succeeded) :
    processEvents unmarshal store es = store := by
  induction es generalizing store with
  | nil => rfl
  | cons p rest ih =>
    obtain ⟨env0, event0⟩ := p
    simp only [outcomes, List.mem_cons, forall_eq_or_imp] at h
    have hs := processEvent_store_of_not_succeeded unmarshal env0 store event0 h.1
    simp only [processEvents]
    rw [hs] at h ⊢
    exact ih store h.2

/-- A run of events for `e` keeps the property that the descriptor stored under `e`
carries the id `e`. -/
theorem processEvents_keeps_id (unmarshal : JMap → Option ServerDetail) (store : Store)
    (es : List (Env × Event)) (e : String) (he : e ≠ "")
    (hstore : ∀ d, store e = some d → d.ID = e)
    (hid : ∀ p ∈ es, p.2.ServerID = e)
    (hadded : ∀ p ∈ es, p.2.Typ = EventServerAdded →
      ∀ d, unmarshal p.2.Data = some d → d.ID = e) :
    ∀ d, processEvents unmarshal store es e = some d → d.ID = e := by
  induction es generalizing store with
  | nil => exact hstore
  | cons p rest ih =>
    obtain ⟨env0, event0⟩ := p
    simp only [processEvents]
    refine ih _ ?_ (fun q hq => hid q (List.mem_cons_of_mem _ hq))
      (fun q hq => hadded q (List.mem_cons_of_mem _ hq))
    exact processEvent_keeps_id unmarshal env0 store event0 e he hstore
      (hid _ (List.mem_cons_self _ _)) (hadded _ (List.mem_cons_self _ _))

/-- Dropping a prefix and the element after it leaves the rest. -/
theorem drop_length_succ_append {α : Type} (l r : List α) (a : α) :
    (l ++ a :: r).drop (l.length + 1) = r := by
  induction l with
  | nil => rfl
  | cons x xs ih => simp

/-- Claim C10, as amended. Take a non-empty id `e`, an index in which the descriptor
under `e`, if any, carries the id `e`, and a sequence of events that all carry the
server id `e` and in which the payload of each added event decodes to a descriptor with
the id `e`.  After the run of `processEvents` the entry of `e` is the effect of the last
event whose handler succeeded: after an added event it is the descriptor decoded from
the payload with the two time stamps read at the processing; after an updated event it
is the descriptor decoded from the payload with the id `e`, the `IndexedAt` of the
descriptor that was stored before that event, and the time stamp read at the
processing; after a deleted event there is no entry.  When no handler succeeded the
index is the one before the run. -/
theorem processEvents_last_succeeded (unmarshal : JMap → Option ServerDetail)
    (store : Store) (es : List (Env × Event)) (e : String) (he : e ≠ "")
    (hstore : ∀ d, store e = some d → d.ID = e)
    (hid : ∀ p ∈ es, p.2.ServerID = e)
    (hadded : ∀ p ∈ es, p.2.Typ = EventServerAdded →
      ∀ d, unmarshal p.2.Data = some d → d.ID = e) :
    ((∀ o ∈ outcomes unmarshal store es, o ≠ Outcome.succeeded) →
      processEvents unmarshal store es = store) ∧
    (∀ (pre post : List (Env × Event)) (env : Env) (event : Event),
      es = pre ++ (env, event) :: post →
      (outcomes unmarshal store es)[pre.length]? = some Outcome.succeeded →
      (∀ o ∈ (outcomes unmarshal store es).drop (pre.length + 1), o ≠ Outcome.succeeded) →
      (event.Typ = EventServerAdded → ∃ d, unmarshal event.Data = some d ∧
        processEvents unmarshal store es e =
          some { d with IndexedAt := env.now1, LastUpdated := env.now2 }) ∧
      (event.Typ = EventServerUpdated → ∃ cur d,
        processEvents unmarshal store pre e = some cur ∧
        unmarshal event.Data = some d ∧
        processEvents unmarshal store es e =
          some { d with ID := e, IndexedAt := cur.IndexedAt, LastUpdated := env.now3 }) ∧
      (event.Typ = EventServerDeleted → processEvents unmarshal store es e = none)) := by
  refine ⟨processEvents_of_no_success unmarshal store es, ?_⟩
  intro pre post env event hes hsucc hlast
  subst hes
  have hlen : (outcomes unmarshal store pre).length = pre.length :=
    outcomes_length unmarshal store pre
  rw [outcomes_split] at hsucc hlast
  rw [List.getElem?_append_right (by rw [hlen]), hlen, Nat.sub_self] at hsucc
  simp only [List.getElem?_cons_zero, Option.some.injEq] at hsucc
  have hdrop : (outcomes unmarshal store pre ++
      (processEvent unmarshal env (processEvents unmarshal store pre) event).2 ::
        outcomes unmarshal
          (processEvent unmarshal env (processEvents unmarshal store pre) event).1 post).drop
        (pre.length + 1) =
      outcomes unmarshal
        (processEvent unmarshal env (processEvents unmarshal store pre) event).1 post := by
    rw [← hlen]
    exact drop_length_succ_append _ _ _
  rw [hdrop] at hlast
  rw [processEvents_split, processEvents_of_no_success unmarshal _ post hlast]
  have hpre := processEvents_keeps_id unmarshal store pre e he hstore
    (fun q hq => hid q (List.mem_append_left _ hq))
    (fun q hq => hadded q (List.mem_append_left _ hq))
  have hmem : (env, event) ∈ pre ++ (env, event) :: post :=
    List.mem_append_right _ (List.mem_cons_self _ _)
  exact processEvent_effect unmarshal env (processEvents unmarshal store pre) event e he hpre
    (hid _ hmem) (hadded _ hmem) hsucc

/-- Claim C10 on the sample run for `srv-1` from the empty index: the last event whose
handler succeeded is the updated one (the deleted one fails, the last one has an unknown
type), and the final entry is the descriptor of its payload with the id `srv-1`, the
`IndexedAt` written by the added event and the time stamp of the update. -/
theorem processEvents_last_succeeded_sample :
    ∃ cur d,
      processEvents sampleUnmarshal emptyStore
        [(calmEnv 10 11 12, sampleEvent "server_added" "srv-1" "alpha")] "srv-1" = some cur ∧
      sampleUnmarshal (sampleEvent "server_updated" "other" "beta").Data = some d ∧
      processEvents sampleUnmarshal emptyStore sampleRun "srv-1" =
        some { d with ID := "srv-1", IndexedAt := cur.IndexedAt,
                      LastUpdated := (calmEnv 20 21 22).now3 } :=
  ((processEvents_last_succeeded sampleUnmarshal emptyStore sampleRun "srv-1" (by decide)
      (fun d hd => Option.noConfusion hd)
      (by
        intro p hp
        simp only [sampleRun, List.mem_cons, List.mem_singleton, List.not_mem_nil,
          or_false] at hp
        rcases hp with rfl | rfl | rfl | rfl <;> rfl)
      (by
        intro p hp ht d hd
        simp only [sampleRun, List.mem_cons, List.mem_singleton, List.not_mem_nil,
          or_false] at hp
        rcases hp with rfl | rfl | rfl | rfl
        · cases hd
          rfl
        · exact absurd ht (by decide)
        · exact absurd ht (by decide)
        · exact absurd ht (by decide))).2
    [(calmEnv 10 11 12, sampleEvent "server_added" "srv-1" "alpha")]
    [(stormEnv, sampleEvent "server_deleted" "srv-1" ""),
     (calmEnv 40 41 42, sampleEvent "server_renamed" "srv-1" "gamma")]
    (calmEnv 20 21 22) (sampleEvent "server_updated" "other" "beta")
    rfl (by decide) (by decide)).2.1 rfl

/-- Claim C10 as stated fails.  First: an added event for `srv-1` whose payload carries
the id `srv-2` is handled with success, and the index then holds nothing under `srv-1`
(the descriptor is under `srv-2`).  Second: an updated event for `srv-1` is handled
with success, and the entry of `srv-1` is not the descriptor decoded from the payload
(id `other`, both time stamps read at the processing): it has the id and the
`IndexedAt` of the descriptor stored before. -/
theorem processEvents_added_under_payload_id :
    (outcomes sampleUnmarshal emptyStore
        [(calmEnv 10 11 12, sampleEvent "server_added" "srv-2" "alpha")] =
      [Outcome.succeeded] ∧
     eventDataToServerDetail sampleUnmarshal (calmEnv 10 11 12)
        (sampleEvent "server_added" "srv-2" "alpha").Data =
      some { ID := "srv-2", Name := "alpha", IndexedAt := 10, LastUpdated := 11 } ∧
     processEvents sampleUnmarshal emptyStore
        [(calmEnv 10 11 12, sampleEvent "server_added" "srv-2" "alpha")] "srv-1" = none ∧
     processEvents sampleUnmarshal emptyStore
        [(calmEnv 10 11 12, sampleEvent "server_added" "srv-2" "alpha")] "srv-2" =
      some { ID := "srv-2", Name := "alpha", IndexedAt := 10, LastUpdated := 11 }) ∧
    (outcomes sampleUnmarshal emptyStore
        [(calmEnv 10 11 12, sampleEvent "server_added" "srv-1" "alpha"),
         (calmEnv 20 21 22, sampleEvent "server_updated" "other" "beta")] =
      [Outcome.succeeded, Outcome.succeeded] ∧
     eventDataToServerDetail sampleUnmarshal (calmEnv 20 21 22)
        (sampleEvent "server_updated" "other" "beta").Data =
      some { ID := "other", Name := "beta", IndexedAt := 20, LastUpdated := 21 } ∧
     processEvents sampleUnmarshal emptyStore
        [(calmEnv 10 11 12, sampleEvent "server_added" "srv-1" "alpha"),
         (calmEnv 20 21 22, sampleEvent "server_updated" "other" "beta")] "srv-1" =
      some { ID := "srv-1", Name := "beta", IndexedAt := 10, LastUpdated := 22 }) :=
  ⟨⟨by decide, by decide, by decide, by decide⟩, by decide, by decide, by decide⟩

/-! ## Theorems: the handlers of updated, deleted and added events -/

/-- Claim C11. When the update payload decodes to a descriptor `d`, `applyUpdates` ends
without error and leaves in `server` the descriptor `d` with the id and the `IndexedAt`
of the fetched descriptor and with `LastUpdated` read from the clock: every other field
is the field of `d`, and the result does not depend on any other field of the fetched
descriptor (whole-document replacement). -/
theorem applyUpdates_replaces (unmarshal : JMap → Option ServerDetail) (env : Env)
    (server : ServerDetail) (updates : JMap) (d : ServerDetail)
    (hd : unmarshal updates = some d) :
    ∃ r, applyUpdates unmarshal env server updates = some r ∧
      r = { d with ID := server.ID, IndexedAt := server.IndexedAt, LastUpdated := env.now3 } ∧
      r.ID = server.ID ∧ r.IndexedAt = server.IndexedAt ∧ r.LastUpdated = env.now3 ∧
      r.Name = d.Name ∧ r.Description = d.Description ∧ r.Author = d.Author ∧
      r.Homepage = d.Homepage ∧ r.Source = d.Source ∧ r.Repository = d.Repository ∧
      r.License = d.License ∧ r.Categories = d.Categories ∧ r.Packages = d.Packages ∧
      r.VersionDetail = d.VersionDetail ∧ r.Remotes = d.Remotes ∧ r.Tools = d.Tools ∧
      r.Prompts = d.Prompts ∧ r.Templates = d.Templates ∧
      r.InstallCount = d.InstallCount ∧ r.RatingAverage = d.RatingAverage ∧
      r.RatingCount = d.RatingCount ∧ r.PopularityScore = d.PopularityScore ∧
      r.TrendingScore = d.TrendingScore ∧ r.QualityScore = d.QualityScore ∧
      r.Score = d.Score ∧
      (∀ other : ServerDetail, other.ID = server.ID → other.IndexedAt = server.IndexedAt →
        applyUpdates unmarshal env other updates = some r) := by
  refine ⟨{ d with ID := server.ID, IndexedAt := server.IndexedAt, LastUpdated := env.now3 },
    ?_, rfl, rfl, rfl, rfl, rfl, rfl, rfl, rfl, rfl, rfl, rfl, rfl, rfl, rfl, rfl, rfl, rfl,
    rfl, rfl, rfl, rfl, rfl, rfl, rfl, rfl, ?_⟩
  · simp [applyUpdates, eventDataToServerDetail, hd]
  · intro other hid hat
    simp [applyUpdates, eventDataToServerDetail, hd, hid, hat]

/-- Claim C11 on the descriptor of `ratedStore` and a payload with an id and a name: the
id and `IndexedAt` are those of the fetched descriptor, the name is the one of the
payload, and the install count is the one decoded from the payload, which is zero. -/
theorem applyUpdates_replaces_sample :
    ∃ r, applyUpdates sampleUnmarshal (calmEnv 20 21 22)
        { ID := "srv-1", Name := "alpha", IndexedAt := 10, LastUpdated := 11,
          InstallCount := 5 }
        [("id", JVal.str "other"), ("name", JVal.str "beta")] = some r ∧
      r = { ID := "srv-1", Name := "beta", IndexedAt := 10, LastUpdated := 22 } :=
  (applyUpdates_replaces sampleUnmarshal (calmEnv 20 21 22)
      { ID := "srv-1", Name := "alpha", IndexedAt := 10, LastUpdated := 11,
        InstallCount := 5 }
      [("id", JVal.str "other"), ("name", JVal.str "beta")]
      { ID := "other", Name := "beta" } rfl).imp fun _ hr => ⟨hr.1, hr.2.1⟩

/-- Claim C12, as amended. When the descriptor `cur` is stored under the server id of an
updated event, the payload decodes to `d` and the get and index requests succeed, the
handler succeeds and the descriptor it writes back is `d` with the id and `IndexedAt` of
`cur` and a fresh `LastUpdated`: each of the analytics fields `InstallCount`,
`RatingAverage`, `RatingCount`, `PopularityScore`, `TrendingScore`, `QualityScore` has
the value decoded from the payload, not the value of the fetched descriptor. -/
theorem handleServerUpdated_analytics (unmarshal : JMap → Option ServerDetail) (env : Env)
    (store : Store) (event : Event) (cur d : ServerDetail)
    (hcur : store event.ServerID = some cur) (hd : unmarshal event.Data = some d)
    (hget : env.getFails = false) (hindex : env.indexFails = false) :
    ∃ w, (handleServerUpdated unmarshal env store event).2 = Outcome.succeeded ∧
      (handleServerUpdated unmarshal env store event).1
        (if cur.ID ≠ "" then cur.ID else env.autoID) = some w ∧
      w = { d with ID := cur.ID, IndexedAt := cur.IndexedAt, LastUpdated := env.now3 } ∧
      w.InstallCount = d.InstallCount ∧ w.RatingAverage = d.RatingAverage ∧
      w.RatingCount = d.RatingCount ∧ w.PopularityScore = d.PopularityScore ∧
      w.TrendingScore = d.TrendingScore ∧ w.QualityScore = d.QualityScore := by
  refine ⟨{ d with ID := cur.ID, IndexedAt := cur.IndexedAt, LastUpdated := env.now3 },
    ?_, ?_, rfl, rfl, rfl, rfl, rfl, rfl, rfl⟩
  · simp [handleServerUpdated, GetServer, applyUpdates, eventDataToServerDetail, IndexServer,
      hcur, hd, hget, hindex]
  · simp [handleServerUpdated, GetServer, applyUpdates, eventDataToServerDetail, IndexServer,
      hcur, hd, hget, hindex, Store.put]

/-- Claim C12, as amended, on `ratedStore` and an updated event whose payload has an id and
a name only: the descriptor written back has the install count decoded from the payload. -/
theorem handleServerUpdated_analytics_sample :
    ∃ w, (handleServerUpdated sampleUnmarshal (calmEnv 20 21 22) ratedStore
          (sampleEvent "server_updated" "srv-1" "beta")).1 "srv-1" = some w ∧
      w.InstallCount = (0 : Int) :=
  (handleServerUpdated_analytics sampleUnmarshal (calmEnv 20 21 22) ratedStore
      (sampleEvent "server_updated" "srv-1" "beta")
      { ID := "srv-1", Name := "alpha", IndexedAt := 10, LastUpdated := 11,
        InstallCount := 5, RatingAverage := 4, RatingCount := 3,
        PopularityScore := 2, TrendingScore := 1, QualityScore := 1 }
      { ID := "srv-1", Name := "beta" } rfl rfl rfl rfl).imp
    fun _ hw => ⟨hw.2.1, hw.2.2.2.1⟩

/-- Claim C12 as stated fails.  The descriptor stored under `srv-1` has install count 5,
rating average 4, rating count 3 and scores 2, 1, 1; the payload of the updated event has
an id and a name and none of the analytics members; the handler succeeds, and the
descriptor written back has all six analytics fields zero. -/
theorem handleServerUpdated_resets_analytics :
    ratedStore "srv-1" =
      some { ID := "srv-1", Name := "alpha", IndexedAt := 10, LastUpdated := 11,
             InstallCount := 5, RatingAverage := 4, RatingCount := 3,
             PopularityScore := 2, TrendingScore := 1, QualityScore := 1 } ∧
    (["install_count", "rating_average", "rating_count", "popularity_score",
        "trending_score", "quality_score"].all fun k =>
      (JMap.get (sampleEvent "server_updated" "srv-1" "beta").Data k).isNone) = true ∧
    (handleServerUpdated sampleUnmarshal (calmEnv 20 21 22) ratedStore
        (sampleEvent "server_updated" "srv-1" "beta")).2 = Outcome.succeeded ∧
    (handleServerUpdated sampleUnmarshal (calmEnv 20 21 22) ratedStore
        (sampleEvent "server_updated" "srv-1" "beta")).1 "srv-1" =
      some { ID := "srv-1", Name := "beta", IndexedAt := 10, LastUpdated := 22,
             InstallCount := 0, RatingAverage := 0, RatingCount := 0,
             PopularityScore := 0, TrendingScore := 0, QualityScore := 0 } :=
  ⟨by decide, by decide, by decide, by decide⟩

/-- Claim C13. When the index has no document under the server id of an updated event,
`GetServer` answers with an error (the not-found error when the request itself does not
fail), and `handleServerUpdated` returns before any write, whatever the payload, the
decoder and the environment: the index is unchanged, so it still has no document under
that id. -/
theorem handleServerUpdated_not_found (unmarshal : JMap → Option ServerDetail) (env : Env)
    (store : Store) (event : Event) (habsent : store event.ServerID = none) :
    (env.getFails = false →
      GetServer env store event.ServerID =
        Except.error ("server not found: " ++ event.ServerID)) ∧
    handleServerUpdated unmarshal env store event = (store, Outcome.failed) ∧
    (handleServerUpdated unmarshal env store event).1 event.ServerID = none := by
  have hstep : handleServerUpdated unmarshal env store event = (store, Outcome.failed) := by
    unfold handleServerUpdated GetServer
    cases hg : env.getFails <;> simp [habsent]
  refine ⟨?_, hstep, ?_⟩
  · intro hg
    simp [GetServer, hg, habsent]
  · rw [hstep]
    exact habsent

/-- Claim C13 on the empty index and an updated event for `srv-1`. -/
theorem handleServerUpdated_not_found_sample :
    handleServerUpdated sampleUnmarshal (calmEnv 20 21 22) emptyStore
        (sampleEvent "server_updated" "srv-1" "beta") = (emptyStore, Outcome.failed) :=
  (handleServerUpdated_not_found sampleUnmarshal (calmEnv 20 21 22) emptyStore
      (sampleEvent "server_updated" "srv-1" "beta") rfl).2.1

/-- Claim C14. When the delete requests themselves do not fail: for an id without a
document (the engine answers 404) `DeleteServer` returns no error and the same index,
and a deleted event for that id is handled as a success; and for every index, deleting
an id a second time gives the index and the nil error that deleting it once gives. -/
theorem DeleteServer_idempotent (env env2 : Env) (store : Store) (id : String)
    (hfirst : env.deleteFails = false) (hsecond : env2.deleteFails = false) :
    (store id = none → DeleteServer env store id = (store, true)) ∧
    (∀ event : Event, event.ServerID = id → store id = none →
      handleServerDeleted env store event = (store, Outcome.succeeded)) ∧
    (DeleteServer env store id).2 = true ∧
    DeleteServer env2 (DeleteServer env store id).1 id = DeleteServer env store id := by
  have habs : store id = none → DeleteServer env store id = (store, true) := by
    intro h
    simp [DeleteServer, hfirst, h]
  refine ⟨habs, ?_, ?_, ?_⟩
  · intro event hid h
    unfold handleServerDeleted
    rw [hid, habs h]
  · unfold DeleteServer
    cases h : store id <;> simp [hfirst]
  · unfold DeleteServer
    cases h : store id with
    | none => simp [hfirst, hsecond, h]
    | some cur => simp [hfirst, hsecond, Store.delete]

/-- Claim C14 on `ratedStore`: the id `srv-9` has no document there, so its deletion
succeeds and changes nothing; and deleting `srv-1` twice is deleting it once. -/
theorem DeleteServer_idempotent_sample :
    DeleteServer (calmEnv 50 51 52) ratedStore "srv-9" = (ratedStore, true) ∧
    DeleteServer (calmEnv 60 61 62) (DeleteServer (calmEnv 50 51 52) ratedStore "srv-1").1
        "srv-1" = DeleteServer (calmEnv 50 51 52) ratedStore "srv-1" :=
  ⟨(DeleteServer_idempotent (calmEnv 50 51 52) (calmEnv 60 61 62) ratedStore "srv-9"
      rfl rfl).1 (by decide),
   (DeleteServer_idempotent (calmEnv 50 51 52) (calmEnv 60 61 62) ratedStore "srv-1"
      rfl rfl).2.2.2⟩

/-- Claim C15. For an event whose body parses, `HandleEvent` answers 400 "Missing required
fields" if and only if the type or the server id is the empty string; then the handler,
and with it the queue, is unchanged; and every other parsed event, whatever its type,
reaches the `select`: it is appended to the queue and accepted when the buffer has room,
and refused with 503 otherwise. -/
theorem HandleEvent_malformed_iff (h : EventHandler) (event : Event) :
    ((HandleEvent h (some event)).1 =
        { status := 400, body := [("error", "Missing required fields")] } ↔
      (event.Typ = "" ∨ event.ServerID = "")) ∧
    ((event.Typ = "" ∨ event.ServerID = "") → (HandleEvent h (some event)).2 = h) ∧
    (¬ (event.Typ = "" ∨ event.ServerID = "") →
      (h.eventQueue.buf.length < h.eventQueue.cap →
        HandleEvent h (some event) =
          ({ status := 200, body := [("status", "accepted")] },
            { h with eventQueue :=
                { h.eventQueue with buf := h.eventQueue.buf ++ [event] } })) ∧
      (¬ h.eventQueue.buf.length < h.eventQueue.cap →
        HandleEvent h (some event) =
          ({ status := 503, body := [("error", "Event queue full")] }, h))) := by
  refine ⟨⟨?_, ?_⟩, ?_, ?_⟩
  · intro hresp
    by_contra hne
    unfold HandleEvent at hresp
    simp only [if_neg hne] at hresp
    split_ifs at hresp
    · have hstatus : (200 : Nat) = 400 := congrArg Response.status hresp
      exact absurd hstatus (by decide)
    · have hstatus : (503 : Nat) = 400 := congrArg Response.status hresp
      exact absurd hstatus (by decide)
  · intro hbad
    simp [HandleEvent, hbad]
  · intro hbad
    simp [HandleEvent, hbad]
  · intro hne
    constructor
    · intro hroom
      simp [HandleEvent, hne, hroom]
    · intro hfull
      simp [HandleEvent, hne, hfull]

/-- Writing twice under one id keeps the second document only. -/
theorem Store.put_put (store : Store) (id : String) (a b : ServerDetail) :
    (store.put id a).put id b = store.put id b := by
  funext k
  unfold Store.put
  split_ifs <;> rfl

/-- Claim C16, as amended. When the payload of an added event decodes to a descriptor `d`
with a non-empty id and the index request succeeds, `handleServerAdded` succeeds and
writes under the id of `d` the descriptor `d` with `IndexedAt` and `LastUpdated` read
from the clock at processing (the time stamps of the payload are overridden): the write
replaces what was stored under that id and changes no other entry.  Processing the same
event a second time (the index request succeeding again) gives the index that
processing it once at the second time gives; it differs from the index after the first
processing only in the two time stamps of that entry. -/
theorem handleServerAdded_put (unmarshal : JMap → Option ServerDetail) (env env2 : Env)
    (store : Store) (event : Event) (d : ServerDetail)
    (hd : unmarshal event.Data = some d) (hid : d.ID ≠ "")
    (hindex : env.indexFails = false) (hindex2 : env2.indexFails = false) :
    handleServerAdded unmarshal env store event =
      (store.put d.ID { d with IndexedAt := env.now1, LastUpdated := env.now2 },
        Outcome.succeeded) ∧
    (handleServerAdded unmarshal env store event).1 d.ID =
      some { d with IndexedAt := env.now1, LastUpdated := env.now2 } ∧
    (∀ k, k ≠ d.ID → (handleServerAdded unmarshal env store event).1 k = store k) ∧
    (handleServerAdded unmarshal env2 (handleServerAdded unmarshal env store event).1 event).1 =
      (handleServerAdded unmarshal env2 store event).1 ∧
    (∀ k, k ≠ d.ID →
      (handleServerAdded unmarshal env2
        (handleServerAdded unmarshal env store event).1 event).1 k =
      (handleServerAdded unmarshal env store event).1 k) ∧
    (∃ once twice,
      (handleServerAdded unmarshal env store event).1 d.ID = some once ∧
      (handleServerAdded unmarshal env2
        (handleServerAdded unmarshal env store event).1 event).1 d.ID = some twice ∧
      { twice with IndexedAt := once.IndexedAt, LastUpdated := once.LastUpdated } = once) := by
  have hstep : ∀ (e : Env) (s : Store), e.indexFails = false →
      handleServerAdded unmarshal e s event =
        (s.put d.ID { d with IndexedAt := e.now1, LastUpdated := e.now2 },
          Outcome.succeeded) := by
    intro e s he
    simp [handleServerAdded, eventDataToServerDetail, IndexServer, hd, he, hid]
  rw [hstep env store hindex, hstep env2 _ hindex2, hstep env2 store hindex2]
  refine ⟨rfl, ?_, ?_, ?_, ?_, ?_⟩
  · simp [Store.put]
  · intro k hk
    simp [Store.put, hk]
  · exact Store.put_put store d.ID _ _
  · intro k hk
    simp [Store.put, hk]
  · exact ⟨{ d with IndexedAt := env.now1, LastUpdated := env.now2 },
      { d with IndexedAt := env2.now1, LastUpdated := env2.now2 },
      by simp [Store.put], by simp [Store.put], rfl⟩

/-- Claim C16, as amended, on `ratedStore` and an added event for `srv-1`: the descriptor
of the payload replaces the stored one, and a second processing gives the index of a
single processing at the second time. -/
theorem handleServerAdded_put_sample :
    (handleServerAdded sampleUnmarshal (calmEnv 10 11 12) ratedStore
        (sampleEvent "server_added" "srv-1" "alpha")).1 "srv-1" =
      some { ID := "srv-1", Name := "alpha", IndexedAt := 10, LastUpdated := 11 } ∧
    (handleServerAdded sampleUnmarshal (calmEnv 20 21 22)
        (handleServerAdded sampleUnmarshal (calmEnv 10 11 12) ratedStore
          (sampleEvent "server_added" "srv-1" "alpha")).1
        (sampleEvent "server_added" "srv-1" "alpha")).1 =
      (handleServerAdded sampleUnmarshal (calmEnv 20 21 22) ratedStore
        (sampleEvent "server_added" "srv-1" "alpha")).1 :=
  ⟨(handleServerAdded_put sampleUnmarshal (calmEnv 10 11 12) (calmEnv 20 21 22) ratedStore
      (sampleEvent "server_added" "srv-1" "alpha") { ID := "srv-1", Name := "alpha" }
      rfl (by decide) rfl rfl).2.1,
   (handleServerAdded_put sampleUnmarshal (calmEnv 10 11 12) (calmEnv 20 21 22) ratedStore
      (sampleEvent "server_added" "srv-1" "alpha") { ID := "srv-1", Name := "alpha" }
      rfl (by decide) rfl rfl).2.2.2.1⟩

/-- Claim C16 as stated fails.  First: the payload of the added event decodes to a
descriptor with the empty id, so the engine stores it under an id of its own choice;
processed once, the index has one document, under `gen-1`; processed twice, it has a
second document under `gen-2`, so the second processing does not replace the first.
Second: when the index request fails the handler fails and nothing is stored. -/
theorem handleServerAdded_empty_id_twice :
    (sampleUnmarshal (sampleEvent "server_added" "" "alpha").Data =
      some { ID := "", Name := "alpha" } ∧
     (handleServerAdded sampleUnmarshal
        { calmEnv 10 11 12 with autoID := "gen-1" } emptyStore
        (sampleEvent "server_added" "" "alpha")).2 = Outcome.succeeded ∧
     (handleServerAdded sampleUnmarshal
        { calmEnv 10 11 12 with autoID := "gen-1" } emptyStore
        (sampleEvent "server_added" "" "alpha")).1 "gen-2" = none ∧
     (handleServerAdded sampleUnmarshal
        { calmEnv 20 21 22 with autoID := "gen-2" }
        (handleServerAdded sampleUnmarshal
          { calmEnv 10 11 12 with autoID := "gen-1" } emptyStore
          (sampleEvent "server_added" "" "alpha")).1
        (sampleEvent "server_added" "" "alpha")).1 "gen-1" =
      some { ID := "", Name := "alpha", IndexedAt := 10, LastUpdated := 11 } ∧
     (handleServerAdded sampleUnmarshal
        { calmEnv 20 21 22 with autoID := "gen-2" }
        (handleServerAdded sampleUnmarshal
          { calmEnv 10 11 12 with autoID := "gen-1" } emptyStore
          (sampleEvent "server_added" "" "alpha")).1
        (sampleEvent "server_added" "" "alpha")).1 "gen-2" =
      some { ID := "", Name := "alpha", IndexedAt := 20, LastUpdated := 21 }) ∧
    ((handleServerAdded sampleUnmarshal stormEnv emptyStore
        (sampleEvent "server_added" "srv-1" "alpha")).2 = Outcome.failed ∧
     (handleServerAdded sampleUnmarshal stormEnv emptyStore
        (sampleEvent "server_added" "srv-1" "alpha")).1 "srv-1" = none) :=
  ⟨⟨by decide, by decide, by decide, by decide, by decide⟩, by decide, by decide⟩

/-! ## Theorems: windowing, the search handler and the totality of `parseFacets` -/

/-- What `QueryInt` reads is the default or a value of the type `int`. -/
theorem QueryInt_range (param : Option Int) (defaultValue : Int)
    (hlo : minInt ≤ defaultValue) (hhi : defaultValue ≤ maxInt) :
    minInt ≤ QueryInt param defaultValue ∧ QueryInt param defaultValue ≤ maxInt := by
  unfold QueryInt
  cases param with
  | none => exact ⟨hlo, hhi⟩
  | some n =>
    by_cases h : minInt ≤ n ∧ n ≤ maxInt
    · simp [h]
    · simpa [h] using And.intro hlo hhi

/-- Claim C18, as amended. The query that the handler of `GET /v1/search` hands to
`Search` has as `Offset` what `QueryInt` reads for `offset`: the requested offset when
it is a value of the type `int`, and 0 when the parameter is absent, no integer, or an
integer outside the range of `int`.  Its `Limit` is the smaller of `SearchMaxResults`
and what `QueryInt` reads for `limit` (the requested limit, or 20 in the same three
cases).  So `Limit` is at most `SearchMaxResults`; `Offset` is at least 0 whenever the
requested offset is at least 0 or cannot be read; for `SearchMaxResults` at least 1,
`Limit` is positive whenever the requested limit is positive or cannot be read; and with
`SearchMaxResults` a value of `int`, so are `Offset` and `Limit`.  No lower bound is
enforced. -/
theorem searchHandlerQuery_bounds (searchMaxResults : Int) (c : SearchParams) :
    (searchHandlerQuery searchMaxResults c).Offset = QueryInt c.offset 0 ∧
    (searchHandlerQuery searchMaxResults c).Limit =
      min (QueryInt c.limit 20) searchMaxResults ∧
    (∀ n, c.offset = some n → minInt ≤ n → n ≤ maxInt →
      (searchHandlerQuery searchMaxResults c).Offset = n) ∧
    (∀ n, c.offset = some n → (n < minInt ∨ maxInt < n) →
      (searchHandlerQuery searchMaxResults c).Offset = 0) ∧
    (c.offset = none → (searchHandlerQuery searchMaxResults c).Offset = 0) ∧
    (∀ n, c.limit = some n → minInt ≤ n → n ≤ maxInt →
      (searchHandlerQuery searchMaxResults c).Limit = min n searchMaxResults) ∧
    (∀ n, c.limit = some n → (n < minInt ∨ maxInt < n) →
      (searchHandlerQuery searchMaxResults c).Limit = min 20 searchMaxResults) ∧
    (c.limit = none → (searchHandlerQuery searchMaxResults c).Limit = min 20 searchMaxResults) ∧
    (searchHandlerQuery searchMaxResults c).Limit ≤ searchMaxResults ∧
    ((∀ n, c.offset = some n → 0 ≤ n) → 0 ≤ (searchHandlerQuery searchMaxResults c).Offset) ∧
    (1 ≤ searchMaxResults → (∀ n, c.limit = some n → 0 < n) →
      0 < (searchHandlerQuery searchMaxResults c).Limit) ∧
    (minInt ≤ searchMaxResults → searchMaxResults ≤ maxInt →
      minInt ≤ (searchHandlerQuery searchMaxResults c).Offset ∧
      (searchHandlerQuery searchMaxResults c).Offset ≤ maxInt ∧
      minInt ≤ (searchHandlerQuery searchMaxResults c).Limit ∧
      (searchHandlerQuery searchMaxResults c).Limit ≤ maxInt) := by
  have hoff : (searchHandlerQuery searchMaxResults c).Offset = QueryInt c.offset 0 := by
    unfold searchHandlerQuery
    simp only []
    split_ifs <;> rfl
  have hlim : (searchHandlerQuery searchMaxResults c).Limit =
      min (QueryInt c.limit 20) searchMaxResults := by
    by_cases h : QueryInt c.limit 20 > searchMaxResults
    · have hcap : (searchHandlerQuery searchMaxResults c).Limit = searchMaxResults := by
        simp [searchHandlerQuery, h]
      rw [hcap]
      exact (min_eq_right (le_of_lt h)).symm
    · have hkeep : (searchHandlerQuery searchMaxResults c).Limit = QueryInt c.limit 20 := by
        simp [searchHandlerQuery, h]
      rw [hkeep]
      exact (min_eq_left (not_lt.1 h)).symm
  have hin : ∀ (p : Option Int) (dflt n : Int), p = some n → minInt ≤ n → n ≤ maxInt →
      QueryInt p dflt = n := by
    intro p dflt n hp hlo hhi
    simp [QueryInt, hp, hlo, hhi]
  have hout : ∀ (p : Option Int) (dflt n : Int), p = some n → (n < minInt ∨ maxInt < n) →
      QueryInt p dflt = dflt := by
    intro p dflt n hp hbad
    have hnot : ¬ (minInt ≤ n ∧ n ≤ maxInt) := by
      rintro ⟨hlo, hhi⟩
      rcases hbad with hb | hb
      · exact absurd hlo (not_le.2 hb)
      · exact absurd hhi (not_le.2 hb)
    simp [QueryInt, hp, hnot]
  have hnone : ∀ (p : Option Int) (dflt : Int), p = none → QueryInt p dflt = dflt := by
    intro p dflt hp
    simp [QueryInt, hp]
  have hpos : ∀ (p : Option Int) (dflt bound : Int), bound ≤ dflt →
      (∀ n, p = some n → bound ≤ n) → bound ≤ QueryInt p dflt := by
    intro p dflt bound hd hp
    unfold QueryInt
    cases p with
    | none => exact hd
    | some n =>
      by_cases h : minInt ≤ n ∧ n ≤ maxInt
      · simpa [h] using hp n rfl
      · simpa [h] using hd
  have h20lo : minInt ≤ (20 : Int) := by decide
  have h20hi : (20 : Int) ≤ maxInt := by decide
  have h0lo : minInt ≤ (0 : Int) := by decide
  have h0hi : (0 : Int) ≤ maxInt := by decide
  refine ⟨hoff, hlim, ?_, ?_, ?_, ?_, ?_, ?_, ?_, ?_, ?_, ?_⟩
  · intro n hn hlo hhi
    rw [hoff, hin _ _ n hn hlo hhi]
  · intro n hn hbad
    rw [hoff, hout _ _ n hn hbad]
  · intro hn
    rw [hoff, hnone _ _ hn]
  · intro n hn hlo hhi
    rw [hlim, hin _ _ n hn hlo hhi]
  · intro n hn hbad
    rw [hlim, hout _ _ n hn hbad]
  · intro hn
    rw [hlim, hnone _ _ hn]
  · rw [hlim]
    exact min_le_right _ _
  · intro h
    rw [hoff]
    exact hpos c.offset 0 0 (le_refl 0) h
  · intro hmax h
    rw [hlim]
    have h1 : (1 : Int) ≤ QueryInt c.limit 20 :=
      hpos c.limit 20 1 (by decide) (fun n hn => h n hn)
    exact lt_min (by omega) (by omega)
  · intro hlo hhi
    have hq := QueryInt_range c.offset 0 h0lo h0hi
    have hl := QueryInt_range c.limit 20 h20lo h20hi
    rw [hoff, hlim]
    exact ⟨hq.1, hq.2, le_min hl.1 hlo, le_trans (min_le_right _ _) hhi⟩

/-- Claim C18 as stated fails: with `SearchMaxResults` 100, the request `offset=-1` and
`limit=0` gives a query with `Offset` -1 and `Limit` 0, outside the bounds `Offset >= 0`
and `0 < Limit`. -/
theorem searchHandlerQuery_negative_offset_zero_limit :
    (searchHandlerQuery 100
      { q := "weather", sort := "", offset := some (-1), limit := some 0,
        package_type := "", transport := "", category := "", source := "" }).Offset = -1 ∧
    (searchHandlerQuery 100
      { q := "weather", sort := "", offset := some (-1), limit := some 0,
        package_type := "", transport := "", category := "", source := "" }).Limit = 0 ∧
    ¬ (0 ≤ (searchHandlerQuery 100
      { q := "weather", sort := "", offset := some (-1), limit := some 0,
        package_type := "", transport := "", category := "", source := "" }).Offset) ∧
    ¬ (0 < (searchHandlerQuery 100
      { q := "weather", sort := "", offset := some (-1), limit := some 0,
        package_type := "", transport := "", category := "", source := "" }).Limit) :=
  ⟨by decide, by decide, by decide, by decide⟩

/-- A requested offset and limit outside the range of `int` are read as the defaults:
`offset=99999999999999999999` and `limit=99999999999999999999` give `Offset` 0 and
`Limit` 20. -/
theorem searchHandlerQuery_out_of_range :
    (searchHandlerQuery 100
      { q := "weather", sort := "", offset := some 99999999999999999999,
        limit := some 99999999999999999999,
        package_type := "", transport := "", category := "", source := "" }).Offset = 0 ∧
    (searchHandlerQuery 100
      { q := "weather", sort := "", offset := some 99999999999999999999,
        limit := some 99999999999999999999,
        package_type := "", transport := "", category := "", source := "" }).Limit = 20 :=
  ⟨by decide, by decide⟩

/-- The bucket loop gives the same result when the entries that are not objects are
removed from the list beforehand. -/
theorem bucketLoop_filter_isObject (values : List FacetValue) (buckets : List JVal) :
    bucketLoop values (buckets.filter isObject) = bucketLoop values buckets := by
  induction buckets generalizing values with
  | nil => rfl
  | cons b rest ih =>
    cases b with
    | obj kvs =>
      simp only [List.filter_cons, isObject, if_true, bucketLoop]
      cases JMap.get kvs "key" with
      | none => rfl
      | some k =>
        cases k with
        | str key =>
          cases JMap.get kvs "doc_count" with
          | none => rfl
          | some c =>
            cases c with
            | num count => exact ih _
            | _ => rfl
        | _ => rfl
    | null => simpa [List.filter_cons, isObject, bucketLoop] using ih values
    | bool _ => simpa [List.filter_cons, isObject, bucketLoop] using ih values
    | num _ => simpa [List.filter_cons, isObject, bucketLoop] using ih values
    | int _ => simpa [List.filter_cons, isObject, bucketLoop] using ih values
    | str _ => simpa [List.filter_cons, isObject, bucketLoop] using ih values
    | arr _ => simpa [List.filter_cons, isObject, bucketLoop] using ih values

/-- One value is decoded for each object entry of a well-formed bucket list. -/
theorem decodedValues_length (buckets : List JVal) (h : buckets.all bucketOk = true) :
    (decodedValues buckets).length = (buckets.filter isObject).length := by
  induction buckets with
  | nil => rfl
  | cons b rest ih =>
    rw [List.all_cons, Bool.and_eq_true] at h
    obtain ⟨hb, hrest⟩ := h
    cases b with
    | obj kvs =>
      obtain ⟨k, c, hk, hc⟩ := bucketOk_obj kvs hb
      simp [decodedValues, hk, hc, isObject, ih hrest]
    | null => simpa [decodedValues, isObject] using ih hrest
    | bool _ => simpa [decodedValues, isObject] using ih hrest
    | num _ => simpa [decodedValues, isObject] using ih hrest
    | int _ => simpa [decodedValues, isObject] using ih hrest
    | str _ => simpa [decodedValues, isObject] using ih hrest
    | arr _ => simpa [decodedValues, isObject] using ih hrest

/-- Claim C19. On every aggregation map, the nil map included, in which each bucket that
is an object has a string "key" and a numeric "doc_count", `parseFacets` returns a facet
list: no type assertion fails.  What has an unexpected shape is skipped: a kind whose
bucket list is not found where it is expected (a member that is missing, or is no object
or no list) gives no facet, and each facet has one value for each object entry of its
bucket list, the other entries having no effect on the loop. -/
theorem parseFacets_total (aggs : JMap) (h : bucketsAll bucketOk aggs = true) :
    ∃ facets, parseFacets aggs = some facets ∧
      (∀ field ∈ ["categories", "package_type", "transport"],
        bucketsAt aggs (bucketPath field) = none → ∀ f ∈ facets, f.Field ≠ field) ∧
      (∀ f ∈ facets, ∃ bs, bucketsAt aggs (bucketPath f.Field) = some bs ∧
        f.Values.length = (bs.filter isObject).length) ∧
      (∀ (values : List FacetValue) (buckets : List JVal),
        bucketLoop values (buckets.filter isObject) = bucketLoop values buckets) ∧
      parseFacets [] = some [] := by
  have h3 := (bucketsAll_iff bucketOk aggs).1 h
  refine ⟨_, parseFacets_of_ok aggs h, ?_, ?_, bucketLoop_filter_isObject, rfl⟩
  · intro field _ hnone f hf hfield
    obtain ⟨g, _, bs, hbs, _, rfl⟩ := (mem_parseFacets_result aggs f).1 hf
    have hg : g = field := hfield
    subst hg
    rw [hnone] at hbs
    cases hbs
  · intro f hf
    obtain ⟨g, hg, bs, hbs, _, rfl⟩ := (mem_parseFacets_result aggs f).1 hf
    have hok : bs.all bucketOk = true := by
      simp only [List.mem_cons, List.mem_singleton, List.not_mem_nil, or_false] at hg
      rcases hg with rfl | rfl | rfl
      · exact h3.1 bs hbs
      · exact h3.2.1 bs hbs
      · exact h3.2.2 bs hbs
    exact ⟨bs, hbs, decodedValues_length bs hok⟩

/-- Claim C19 on `oddAggs`, where `categories` is a string, the `types` of
`package_types` is a list and the transport buckets contain a number, `null` and a
string: the result is the transport facet with the one well-formed bucket. -/
theorem parseFacets_total_odd :
    bucketsAll bucketOk oddAggs = true ∧
    (∃ facets, parseFacets oddAggs = some facets) ∧
    parseFacets oddAggs = some [⟨"transport", [⟨"sse", 4⟩]⟩] :=
  ⟨by decide, (parseFacets_total oddAggs (by decide)).imp fun _ hf => hf.1, by decide⟩

end McpAnalytics
